import Mathlib

/-!
# tdx2db: the synchronisation cycle and the tiered views

A shallow embedding of `cmd/cron.go`, `cmd/common.go` and of the view
definitions of `database/conn.go` and `database/minline.go`.

* A `time.Time` is the integer count of nanoseconds of its instant, a
  `time.Duration` a count of nanoseconds.
* The collaborators of the cycle (file system, HTTP download, archive
  extraction, the vendor tool, the store) are oracles of an `Env`.  Every call
  is appended to a log of `Call`s, and an oracle sees the log of the calls made
  before it, so that its answer may depend on everything that happened so far.
* A Go `error` is the text of its message, `none` being `nil`.  A `nil` slice
  and an empty slice are both the empty list.
-/

namespace Tdx2db

/-! ## Time -/

/-- The duration `time.Hour`, in nanoseconds. -/
def Hour : Int := 3600 * 1000000000

/-- One calendar day, the step `24 * time.Hour` of the date loop. -/
def day : Int := 24 * Hour

/-- The loop
`for d := latestDate.Add(24h); !d.After(Today); d = d.Add(24h) { dates = append(dates, d) }`
of `prepareTdxData`, entered with the current `d` and the dates appended so far. -/
def datesLoop (today : Int) (d : Int) (dates : List Int) : List Int :=
  if _h : d ≤ today then datesLoop today (d + 24 * Hour) (dates ++ [d]) else dates
termination_by (today - d + 1).toNat
decreasing_by
  simp only [Hour]
  omega

/-- The candidate dates `dates` that `prepareTdxData` builds before anything else. -/
def candidateDates (today latestDate : Int) : List Int :=
  datesLoop today (latestDate + 24 * Hour) []

/-! ## Collaborators -/

/-- The calls the cycle makes to its collaborators, with their arguments. -/
inductive Call where
  | connect (path : String)
  | dbClose
  | getStockTableLatestDate
  | mkdirAll (path : String)
  | downloadFile (url filePath : String)
  | unzipFile (filePath targetPath : String)
  | datatoolCreate (dataDir kind : String) (endDate : Int)
  | convertFiles2Csv (dir : String) (prefixes : List String) (out suffix : String)
  | importStockCsv (csvPath : String)
  | import1MinLineCsv (csvPath : String)
  | import5MinLineCsv (csvPath : String)
  | convertGbbqFile2Csv (gbbqFile gbbqCSV : String)
  | importGbbqCsv (csvPath : String)
  | createXdxrView
  | createTurnoverView
  | osCreate (path : String)
  | writeString (text : String)
  | fileClose
  | queryAllXdxr
  | queryAllSymbols
  | importFactorCsv (csvPath : String)
  | createDailyStockViews
  | createQfqView
  | createHfqView
  | create5MinStockViews (parquetPath : String)
  | print (msg : String)
  deriving DecidableEq, Repr

/-- A row of `model.StockData`, as `QueryStockData` scans it.  The floating
point columns are of a type `F` that the cycle only copies and formats. -/
structure StockData (F : Type) where
  Symbol : String
  Open : F
  High : F
  Low : F
  Close : F
  Amount : F
  Volume : Int
  Date : Int

/-- A row of `model.XdxrData`: its `Code`, and the columns the cycle never
reads, of a type `X`. -/
structure XdxrData (X : Type) where
  Code : String
  Rest : X

/-- A row of `model.Factor`, with the six fields that `UpdateFactors` formats. -/
structure Factor (F : Type) where
  Symbol : String
  Date : Int
  Close : F
  PreClose : F
  QfqFactor : F
  HfqFactor : F

/-- The process-wide variables of `cmd/common.go`, and the two view names of
package `database` that are declared outside the files at hand. -/
structure Config where
  Today : Int
  DataDir : String
  VipdocDir : String
  StockCSV : String
  OneMinLineCSV : String
  FiveMinLineCSV : String
  ValidPrefixes : List String
  XdxrViewName : String
  TurnoverViewName : String

/-- The variable `QfqViewName` of `database/stock.go`. -/
def QfqViewName : String := "v_qfq_stocks"

/-- The variable `HfqViewName` of `database/stock.go`. -/
def HfqViewName : String := "v_hfq_stocks"

/-- The collaborators.  `exec` answers every call that returns only an error;
the other fields are the calls that also return a value, and the pure library
functions `filepath.Join`, `Time.Format` and the `%.4f` verb. -/
structure Env (F X : Type) where
  pathJoin : List String → String
  formatDate : String → Int → String
  formatFloat4 : F → String
  exec : List Call → Call → Option String
  downloadFile : List Call → String → String → Int × Option String
  getStockTableLatestDate : List Call → Except String Int
  queryAllXdxr : List Call → Except String (List (XdxrData X))
  queryAllSymbols : List Call → Except String (List String)
  queryStockData : String → Except String (List (StockData F))
  calculateFqFactor : List (StockData F) → List (XdxrData X) → Except String (List (Factor F))

/-! ## `prepareTdxData` -/

/-- The four variables that the first `switch dataType` of `prepareTdxData` sets. -/
structure KindParams where
  targetPath : String
  urlTemplate : String → String
  fileSuffix : String
  dataTypeCN : String

/-- The first `switch dataType` of `prepareTdxData`; `none` is its `default` case. -/
def kindParams {F X : Type} (env : Env F X) (cfg : Config) (dataType : String) :
    Option KindParams :=
  if dataType = "day" then
    some ⟨env.pathJoin [cfg.VipdocDir, "refmhq"],
      fun s => "https://www.tdx.com.cn/products/data/data/g4day/" ++ s ++ ".zip", "day", "日线"⟩
  else if dataType = "tic" then
    some ⟨env.pathJoin [cfg.VipdocDir, "newdatetick"],
      fun s => "https://www.tdx.com.cn/products/data/data/g4tic/" ++ s ++ ".zip", "tic", "分时"⟩
  else none

/-- The loop `for _, date := range dates` of `prepareTdxData`, entered with the
dates still to visit, the `validDates` appended so far and the log.  The first
component is `none` when the loop leaves the function by `return nil, nil`. -/
def downloadLoop {F X : Type} (env : Env F X) (p : KindParams) :
    List Int → List Int → List Call → Option (List Int) × List Call
  | [], validDates, log => (some validDates, log)
  | date :: rest, validDates, log =>
    let dateStr := env.formatDate "20060102" date
    let url := p.urlTemplate dateStr
    let fileName := dateStr ++ p.fileSuffix ++ ".zip"
    let filePath := env.pathJoin [p.targetPath, fileName]
    let r := env.downloadFile log url filePath
    let log1 := log ++ [Call.downloadFile url filePath]
    if r.1 = 200 then
      let log2 := log1 ++ [Call.print ("✅ 已下载 " ++ dateStr ++ " 的数据\n")]
      match env.exec log2 (Call.unzipFile filePath p.targetPath) with
      | some e =>
        downloadLoop env p rest validDates
          (log2 ++ [Call.unzipFile filePath p.targetPath,
            Call.print ("⚠️ 解压文件 " ++ filePath ++ " 失败: " ++ e ++ "\n")])
      | none =>
        downloadLoop env p rest (validDates ++ [date])
          (log2 ++ [Call.unzipFile filePath p.targetPath])
    else if r.1 = 404 then
      downloadLoop env p rest validDates
        (log1 ++ [Call.print ("🟡 " ++ dateStr ++ " 非交易日或数据尚未更新\n")])
    else
      match r.2 with
      | some _ => (none, log1)
      | none => downloadLoop env p rest validDates log1

/-- The last part of `prepareTdxData`: the vendor tool is run up to the last
valid date, once for `day`, twice (`tick`, then `min`) for `tic`. -/
def transcode {F X : Type} (env : Env F X) (cfg : Config) (dataType : String)
    (validDates : List Int) (log : List Call) : (List Int × Option String) × List Call :=
  match validDates.getLast? with
  | none => ((validDates, none), log)
  | some endDate =>
    if dataType = "day" then
      let c := Call.datatoolCreate cfg.DataDir "day" endDate
      match env.exec log c with
      | some e => (([], some ("failed to run DatatoolDayCreate: " ++ e)), log ++ [c])
      | none => ((validDates, none), log ++ [c])
    else if dataType = "tic" then
      let log1 := log ++ [Call.print "🐢 开始转档分笔数据\n"]
      let c1 := Call.datatoolCreate cfg.DataDir "tick" endDate
      match env.exec log1 c1 with
      | some e => (([], some ("failed to run DatatoolTickCreate: " ++ e)), log1 ++ [c1])
      | none =>
        let log2 := log1 ++ [c1, Call.print "🐢 开始转换分钟数据\n"]
        let c2 := Call.datatoolCreate cfg.DataDir "min" endDate
        match env.exec log2 c2 with
        | some e => (([], some ("failed to run DatatoolMinCreate: " ++ e)), log2 ++ [c2])
        | none => ((validDates, none), log2 ++ [c2])
    else ((validDates, none), log)

/-- The body of `prepareTdxData` after the candidate dates have been built. -/
def prepareTdxDataFrom {F X : Type} (env : Env F X) (cfg : Config) (dates : List Int)
    (dataType : String) (log : List Call) : (List Int × Option String) × List Call :=
  if dates.length = 0 then (([], none), log)
  else
    match kindParams env cfg dataType with
    | none => (([], some ("unknown data type: " ++ dataType)), log)
    | some p =>
      match env.exec log (Call.mkdirAll p.targetPath) with
      | some e =>
        (([], some ("failed to create target directory: " ++ e)),
          log ++ [Call.mkdirAll p.targetPath])
      | none =>
        let log1 := log ++ [Call.mkdirAll p.targetPath,
          Call.print ("🐢 开始下载" ++ p.dataTypeCN ++ "数据\n")]
        match downloadLoop env p dates [] log1 with
        | (none, log2) => (([], none), log2)
        | (some validDates, log2) => transcode env cfg dataType validDates log2

/-- The function `prepareTdxData(latestDate, dataType)`: the returned pair
`(validDates, err)` and the log after it. -/
def prepareTdxData {F X : Type} (env : Env F X) (cfg : Config) (latestDate : Int)
    (dataType : String) (log : List Call) : (List Int × Option String) × List Call :=
  prepareTdxDataFrom env cfg (candidateDates cfg.Today latestDate) dataType log

/-! ## Names for the pieces of one round of the download loop -/

/-- The URL that the loop downloads for `date`. -/
def dlUrl {F X : Type} (env : Env F X) (p : KindParams) (date : Int) : String :=
  p.urlTemplate (env.formatDate "20060102" date)

/-- The archive path that the loop downloads `date` to. -/
def dlPath {F X : Type} (env : Env F X) (p : KindParams) (date : Int) : String :=
  env.pathJoin [p.targetPath, env.formatDate "20060102" date ++ p.fileSuffix ++ ".zip"]

/-- The line printed for a date whose download answered 404. -/
def msg404 {F X : Type} (env : Env F X) (date : Int) : String :=
  "🟡 " ++ env.formatDate "20060102" date ++ " 非交易日或数据尚未更新\n"

/-- The line printed before the first download. -/
def msgStart (p : KindParams) : String := "🐢 开始下载" ++ p.dataTypeCN ++ "数据\n"

/-! ## `UpdateFactors`

A Go string is a sequence of bytes.  The strings of the cycle come from the
store, which holds valid UTF-8, so they are `String`s here, and a byte
operation acts on their UTF-8 encoding. -/

/-- The bytes of a Go string. -/
def utf8 (s : String) : List UInt8 := s.data.flatMap String.utf8EncodeChar

/-- The type `XdxrIndex`, a `map[string][]model.XdxrData`, as the partial
function from the bytes of a key to its entry. -/
abbrev XdxrIndex (X : Type) := List UInt8 → Option (List (XdxrData X))

/-- The statement `index[code] = append(index[code], data)`; reading a missing
key of a Go map gives the nil slice. -/
def XdxrIndex.appendAt {X : Type} (index : XdxrIndex X) (code : List UInt8) (data : XdxrData X) :
    XdxrIndex X :=
  fun k => if k = code then some ((index code).getD [] ++ [data]) else index k

/-- The loop `for _, data := range xdxrData` of `buildXdxrIndex`, from the empty map. -/
def indexOf {X : Type} (xdxrData : List (XdxrData X)) : XdxrIndex X :=
  xdxrData.foldl (fun index data => index.appendAt (utf8 data.Code) data) (fun _ => none)

/-- The function `buildXdxrIndex`. -/
def buildXdxrIndex {F X : Type} (env : Env F X) (log : List Call) :
    Except String (XdxrIndex X) × List Call :=
  match env.queryAllXdxr log with
  | .error e => (.error ("failed to query xdxr data: " ++ e), log ++ [Call.queryAllXdxr])
  | .ok xdxrData => (.ok (indexOf xdxrData), log ++ [Call.queryAllXdxr])

/-- The function `getXdxrByCode`.  The slice expression `symbol[2:]` drops the
first two bytes and panics at run time (`slice bounds out of range`) when the
string has fewer than two bytes: `none` is that panic. -/
def getXdxrByCode {X : Type} (index : XdxrIndex X) (symbol : String) :
    Option (List (XdxrData X)) :=
  if (utf8 symbol).length < 2 then none
  else
    let code := (utf8 symbol).drop 2
    match index code with
    | some data => some data
    | none => some []

/-- The local type `result` of `UpdateFactors`. -/
structure result where
  rows : String
  err : Option String
  deriving DecidableEq, Repr

/-- One line of the artifact:
`fmt.Sprintf("%s,%s,%.4f,%.4f,%.4f,%.4f\n", factor.Symbol, factor.Date.Format("2006-01-02"), ...)`. -/
def formatRow {F X : Type} (env : Env F X) (factor : Factor F) : String :=
  factor.Symbol ++ "," ++ env.formatDate "2006-01-02" factor.Date ++ ","
    ++ env.formatFloat4 factor.Close ++ "," ++ env.formatFloat4 factor.PreClose ++ ","
    ++ env.formatFloat4 factor.QfqFactor ++ "," ++ env.formatFloat4 factor.HfqFactor ++ "\n"

/-- The goroutine that `UpdateFactors` starts for the symbol `sym`: the one
`result` it sends on the channel, or `none` when it panics in `getXdxrByCode`. -/
def worker {F X : Type} (env : Env F X) (xdxrIndex : XdxrIndex X) (sym : String) : Option result :=
  match env.queryStockData sym with
  | .error e => some ⟨"", some ("failed to query stock data for symbol " ++ sym ++ ": " ++ e)⟩
  | .ok stockData =>
    match getXdxrByCode xdxrIndex sym with
    | none => none
    | some xdxrData =>
      match env.calculateFqFactor stockData xdxrData with
      | .error e => some ⟨"", some ("failed to calculate factor for symbol " ++ sym ++ ": " ++ e)⟩
      | .ok factors => some ⟨factors.foldl (fun sb factor => sb ++ formatRow env factor) "", none⟩

/-- The results of the goroutines of all symbols, in the order of the symbols;
`none` when one of them panics, which ends the process. -/
def runWorkers {F X : Type} (env : Env F X) (xdxrIndex : XdxrIndex X) :
    List String → Option (List result)
  | [] => some []
  | sym :: rest =>
    match worker env xdxrIndex sym with
    | none => none
    | some res =>
      match runWorkers env xdxrIndex rest with
      | none => none
      | some results => some (res :: results)

/-- The writer goroutine, `for res := range results`, over the results in the
order in which the channel delivers them.  A failed `WriteString` is printed and
the loop goes on. -/
def writer {F X : Type} (env : Env F X) : List result → List Call → List Call
  | [], log => log
  | res :: rest, log =>
    match res.err with
    | some e => writer env rest (log ++ [Call.print ("错误：" ++ e ++ "\n")])
    | none =>
      match env.exec log (Call.writeString res.rows) with
      | some e =>
        writer env rest
          (log ++ [Call.writeString res.rows, Call.print ("写入 CSV 失败：" ++ e ++ "\n")])
      | none => writer env rest (log ++ [Call.writeString res.rows])

/-- The function `UpdateFactors`.  Every goroutine sends one result on a channel
with room for all of them, and the writer receives them until the channel is
closed, after the last goroutine: it sees the results in the order `sched` of
their arrival, a rearrangement of the results.  The value is the returned error
and the log, or `none` when a goroutine panics.  The deferred `outFile.Close()`
is the last call of every return after `os.Create`. -/
def UpdateFactors {F X : Type} (env : Env F X) (cfg : Config)
    (sched : List result → List result) (log : List Call) : Option (Option String × List Call) :=
  let csvPath := env.pathJoin [cfg.DataDir, "factors.csv"]
  match env.exec log (Call.osCreate csvPath) with
  | some e =>
    some (some ("failed to create CSV file " ++ csvPath ++ ": " ++ e), log ++ [Call.osCreate csvPath])
  | none =>
    let log1 := log ++ [Call.osCreate csvPath, Call.print "📟 计算所有股票前收盘价\n"]
    match buildXdxrIndex env log1 with
    | (.error e, log2) => some (some ("failed to build GBBQ index: " ++ e), log2 ++ [Call.fileClose])
    | (.ok xdxrIndex, log2) =>
      match env.queryAllSymbols log2 with
      | .error e =>
        some (some ("failed to query all stock symbols: " ++ e),
          log2 ++ [Call.queryAllSymbols, Call.fileClose])
      | .ok symbols =>
        match runWorkers env xdxrIndex symbols with
        | none => none
        | some results =>
          let log3 := writer env (sched results) (log2 ++ [Call.queryAllSymbols])
          match env.exec log3 (Call.importFactorCsv csvPath) with
          | some e =>
            some (some ("failed to import factor data: " ++ e),
              log3 ++ [Call.importFactorCsv csvPath, Call.fileClose])
          | none =>
            some (none,
              log3 ++ [Call.importFactorCsv csvPath, Call.print "🔢 复权因子导入成功\n",
                Call.fileClose])

/-- The texts handed to `outFile.WriteString` in a log, in order: the artifact
`factors.csv` is their concatenation. -/
def written : List Call → List String
  | [] => []
  | Call.writeString text :: rest => text :: written rest
  | _ :: rest => written rest

/-- The rows of a result that the writer hands to `WriteString`. -/
def okRows (res : result) : Option String :=
  match res.err with
  | none => some res.rows
  | some _ => none

/-- The factor list of a symbol for which the price query and the factor
calculation both succeed. -/
def factorsOf {F X : Type} (env : Env F X) (xdxrIndex : XdxrIndex X) (sym : String) :
    Option (List (Factor F)) :=
  match env.queryStockData sym with
  | .error _ => none
  | .ok stockData =>
    match env.calculateFqFactor stockData ((getXdxrByCode xdxrIndex sym).getD []) with
    | .error _ => none
    | .ok factors => some factors

/-! ## The cycle: `UpdateStocksDaily`, `UpdateStocksMinLine`, `UpdateGbbq`, `Cron` -/

/-- A call that returns only an error, followed by `if err != nil { return fmt.Errorf(wrap, err) }`. -/
def step {F X : Type} (env : Env F X) (c : Call) (wrap : String) (log : List Call) :
    Option String × List Call :=
  match env.exec log c with
  | some e => (some (wrap ++ e), log ++ [c])
  | none => (none, log ++ [c])

/-- The function `UpdateStocksDaily`. -/
def UpdateStocksDaily {F X : Type} (env : Env F X) (cfg : Config) (latestDate : Int)
    (log : List Call) : Option String × List Call :=
  match prepareTdxData env cfg latestDate "day" log with
  | ((_, some e), log1) => (some ("failed to prepare tdx data: " ++ e), log1)
  | ((validDates, none), log1) =>
    if validDates.length > 0 then
      let log2 := log1 ++ [Call.print "🐢 开始转换日线数据\n"]
      match step env (Call.convertFiles2Csv cfg.VipdocDir cfg.ValidPrefixes cfg.StockCSV ".day")
          "failed to convert day files to CSV: " log2 with
      | (some e, log3) => (some e, log3)
      | (none, log3) =>
        match step env (Call.importStockCsv cfg.StockCSV) "failed to import stock CSV: " log3 with
        | (some e, log4) => (some e, log4)
        | (none, log4) => (none, log4 ++ [Call.print "📊 日线数据导入成功\n"])
    else (none, log1 ++ [Call.print "🌲 日线数据无需更新\n"])

/-- The call `strings.Split(s, ",")`, over the characters still to read and
those of the current part. -/
def splitComma : List Char → List Char → List String
  | [], cur => [String.mk cur]
  | c :: cs, cur =>
    if c = ',' then String.mk cur :: splitComma cs [] else splitComma cs (cur ++ [c])

/-- The loop `for _, p := range parts` of `UpdateStocksMinLine`. -/
def minLineLoop {F X : Type} (env : Env F X) (cfg : Config) :
    List String → List Call → Option String × List Call
  | [], log => (none, log)
  | p :: parts, log =>
    if p = "1" then
      match step env (Call.convertFiles2Csv cfg.VipdocDir cfg.ValidPrefixes cfg.OneMinLineCSV ".01")
          "failed to convert .01 files to CSV: " log with
      | (some e, log1) => (some e, log1)
      | (none, log1) =>
        match step env (Call.import1MinLineCsv cfg.OneMinLineCSV)
            "failed to import 1-minute line CSV: " log1 with
        | (some e, log2) => (some e, log2)
        | (none, log2) => minLineLoop env cfg parts (log2 ++ [Call.print "📊 1分钟数据导入成功\n"])
    else if p = "5" then
      match step env (Call.convertFiles2Csv cfg.VipdocDir cfg.ValidPrefixes cfg.FiveMinLineCSV ".5")
          "failed to convert .5 files to CSV: " log with
      | (some e, log1) => (some e, log1)
      | (none, log1) =>
        match step env (Call.import5MinLineCsv cfg.FiveMinLineCSV)
            "failed to import 5-minute line CSV: " log1 with
        | (some e, log2) => (some e, log2)
        | (none, log2) => minLineLoop env cfg parts (log2 ++ [Call.print "📊 5分钟数据导入成功\n"])
    else minLineLoop env cfg parts log

/-- The function `UpdateStocksMinLine`. -/
def UpdateStocksMinLine {F X : Type} (env : Env F X) (cfg : Config) (latestDate : Int)
    (minline : String) (log : List Call) : Option String × List Call :=
  if minline = "" then (none, log)
  else
    match prepareTdxData env cfg latestDate "tic" log with
    | ((_, some e), log1) => (some ("failed to prepare tdx data: " ++ e), log1)
    | ((validDates, none), log1) =>
      if validDates.length > 0 then minLineLoop env cfg (splitComma minline.data []) log1
      else (none, log1 ++ [Call.print "🌲 分时数据无需更新\n"])

/-- The function `getGbbqFile`; of the download only the error is looked at. -/
def getGbbqFile {F X : Type} (env : Env F X) (cacheDir : String) (log : List Call) :
    Except String String × List Call :=
  let zipPath := env.pathJoin [cacheDir, "gbbq.zip"]
  let gbbqURL := "http://www.tdx.com.cn/products/data/data/dbf/gbbq.zip"
  match (env.downloadFile log gbbqURL zipPath).2 with
  | some e =>
    (.error ("failed to download GBBQ zip file: " ++ e), log ++ [Call.downloadFile gbbqURL zipPath])
  | none =>
    let unzipPath := env.pathJoin [cacheDir, "gbbq-temp"]
    match step env (Call.unzipFile zipPath unzipPath) "failed to unzip GBBQ file: "
        (log ++ [Call.downloadFile gbbqURL zipPath]) with
    | (some e, log1) => (.error e, log1)
    | (none, log1) => (.ok (env.pathJoin [unzipPath, "gbbq"]), log1)

/-- The function `UpdateGbbq`. -/
def UpdateGbbq {F X : Type} (env : Env F X) (cfg : Config) (log : List Call) :
    Option String × List Call :=
  match getGbbqFile env cfg.DataDir (log ++ [Call.print "🐢 开始下载股本变迁数据\n"]) with
  | (.error e, log1) => (some ("failed to download GBBQ file: " ++ e), log1)
  | (.ok gbbqFile, log1) =>
    let gbbqCSV := env.pathJoin [cfg.DataDir, "gbbq.csv"]
    match step env (Call.convertGbbqFile2Csv gbbqFile gbbqCSV) "failed to convert GBBQ to CSV: "
        log1 with
    | (some e, log2) => (some e, log2)
    | (none, log2) =>
      match step env (Call.importGbbqCsv gbbqCSV) "failed to import GBBQ CSV into database: "
          log2 with
      | (some e, log3) => (some e, log3)
      | (none, log3) =>
        match step env Call.createXdxrView "failed to create xdxr view: "
            (log3 ++ [Call.print ("🔄 更新除权除息数据视图 (" ++ cfg.XdxrViewName ++ ")\n")]) with
        | (some e, log4) => (some e, log4)
        | (none, log4) =>
          match step env Call.createTurnoverView "failed to create turnover view: "
              (log4 ++ [Call.print ("🔄 更新市值换手数据视图 (" ++ cfg.TurnoverViewName ++ ")\n")])
            with
          | (some e, log5) => (some e, log5)
          | (none, log5) => (none, log5 ++ [Call.print "📈 股本变迁数据导入成功\n"])

/-- The view steps at the end of `Cron`, after `UpdateFactors`. -/
def createViews {F X : Type} (env : Env F X) (cfg : Config) (log : List Call) :
    Option String × List Call :=
  match step env Call.createDailyStockViews "failed to create daily stock views: "
      (log ++ [Call.print "🔄 创建日线临时表和视图\n"]) with
  | (some e, log1) => (some e, log1)
  | (none, log1) =>
    match step env Call.createQfqView "failed to create qfq view: "
        (log1 ++ [Call.print ("🔄 更新前复权数据视图 (" ++ QfqViewName ++ ")\n")]) with
    | (some e, log2) => (some e, log2)
    | (none, log2) =>
      match step env Call.createHfqView "failed to create hfq view: "
          (log2 ++ [Call.print ("🔄 更新后复权数据视图 (" ++ HfqViewName ++ ")\n")]) with
      | (some e, log3) => (some e, log3)
      | (none, log3) =>
        match step env
            (Call.create5MinStockViews (env.pathJoin [cfg.DataDir, "parquet_5", "*", "*.parquet"]))
            "failed to create 5min stock views: " (log3 ++ [Call.print "🔄 更新5分钟数据视图\n"]) with
        | (some e, log4) => (some e, log4)
        | (none, log4) => (none, log4 ++ [Call.print "🚀 今日任务执行成功\n"])

/-- The function `Cron`: the returned error and the log, or `none` when a goroutine
of `UpdateFactors` panics.  After a successful `Connect`, the deferred `db.Close()`
is the last call of every return. -/
def Cron {F X : Type} (env : Env F X) (cfg : Config) (sched : List result → List result)
    (dbPath minline : String) (log : List Call) : Option (Option String × List Call) :=
  if dbPath = "" then some (some "database path cannot be empty", log)
  else
    match step env (Call.connect dbPath) "failed to connect to database: " log with
    | (some e, log1) => some (some e, log1)
    | (none, log1) =>
      match env.getStockTableLatestDate log1 with
      | .error e =>
        some (some ("failed to get latest date from database: " ++ e),
          log1 ++ [Call.getStockTableLatestDate, Call.dbClose])
      | .ok latestStockDate =>
        let log2 := log1 ++ [Call.getStockTableLatestDate,
          Call.print ("📅 日线数据的最新日期为 " ++ env.formatDate "2006-01-02" latestStockDate ++ "\n")]
        match UpdateStocksDaily env cfg latestStockDate log2 with
        | (some e, log3) =>
          some (some ("failed to update daily stock data: " ++ e), log3 ++ [Call.dbClose])
        | (none, log3) =>
          match UpdateStocksMinLine env cfg latestStockDate minline log3 with
          | (some e, log4) =>
            some (some ("failed to update minute-line stock data: " ++ e), log4 ++ [Call.dbClose])
          | (none, log4) =>
            match UpdateGbbq env cfg log4 with
            | (some e, log5) => some (some ("failed to update GBBQ: " ++ e), log5 ++ [Call.dbClose])
            | (none, log5) =>
              match UpdateFactors env cfg sched log5 with
              | none => none
              | some (some e, log6) =>
                some (some ("failed to calculate factors: " ++ e), log6 ++ [Call.dbClose])
              | some (none, log6) =>
                match createViews env cfg log6 with
                | (some e, log7) => some (some e, log7 ++ [Call.dbClose])
                | (none, log7) => some (none, log7 ++ [Call.dbClose])

/-- The log of `Cron` when it enters `UpdateStocksDaily`: the database is
connected and the latest date of the daily table is read and printed. -/
def cronStartLog {F X : Type} (env : Env F X) (dbPath : String) (latestStockDate : Int)
    (log : List Call) : List Call :=
  log ++ [Call.connect dbPath] ++ [Call.getStockTableLatestDate,
    Call.print ("📅 日线数据的最新日期为 " ++ env.formatDate "2006-01-02" latestStockDate ++ "\n")]

/-- The calls by which `prepareTdxData` acquires data: directory creation,
download, extraction, the vendor tool, and printing. -/
def Call.isAcquisition : Call → Bool
  | Call.mkdirAll _ => true
  | Call.downloadFile _ _ => true
  | Call.unzipFile _ _ => true
  | Call.datatoolCreate _ _ _ => true
  | Call.print _ => true
  | _ => false

/-- The log `l` is the log `log` followed by acquisition calls only. -/
def AcqExt (log l : List Call) : Prop :=
  ∃ ext, l = log ++ ext ∧ ext.all Call.isAcquisition = true

/-! ## The served views

A table or view is the list of its rows; a column may hold `NULL` (`none`).
Two rows fall into the same `PARTITION BY` group when their key columns are
equal, two `NULL`s counting as equal. -/

/-- A row with the columns `minLineColumns` of the 5-minute tables. -/
structure MinRow (F : Type) where
  symbol : Option String
  «open» : Option F
  high : Option F
  low : Option F
  close : Option F
  amount : Option F
  volume : Option Int
  datetime : Option Int
  deriving DecidableEq, Repr

/-- A row with the columns of `StocksSchema`, the daily table. -/
structure DailyRow (F : Type) where
  symbol : Option String
  «open» : Option F
  high : Option F
  low : Option F
  close : Option F
  amount : Option F
  volume : Option Int
  date : Option Int
  deriving DecidableEq, Repr

/-- The columns of `PARTITION BY symbol, datetime`. -/
def MinRow.key {F : Type} (r : MinRow F) : Option String × Option Int := (r.symbol, r.datetime)

/-- The key `(symbol, date)` of a daily row. -/
def DailyRow.key {F : Type} (r : DailyRow F) : Option String × Option Int := (r.symbol, r.date)

/-- The subquery `SELECT *, n as _priority FROM layer`. -/
def withPriority {F : Type} (n : Nat) (layer : List (MinRow F)) : List (MinRow F × Nat) :=
  layer.map (fun r => (r, n))

/-- The three subqueries of `v_stocks_5min` joined by `UNION ALL BY NAME`:
`v_cold_stocks_5min` with priority 1, `raw_stocks_5min_temp` with priority 2,
`raw_stocks_5min` with priority 3. -/
def unionAllLayers {F : Type} (cold temp raw : List (MinRow F)) : List (MinRow F × Nat) :=
  withPriority 1 cold ++ withPriority 2 temp ++ withPriority 3 raw

/-- The group of the key `k` under `PARTITION BY symbol, datetime`. -/
def partitionOf {F : Type} (rows : List (MinRow F × Nat)) (k : Option String × Option Int) :
    List (MinRow F × Nat) :=
  rows.filter (fun r => r.1.key = k)

/-- What `ORDER BY _priority DESC` leaves to the engine: `ord` puts the rows of a
group in the order in which `ROW_NUMBER()` numbers them, some rearrangement of
the group in which the priorities never increase. -/
def RowNumberOrder {F : Type} (ord : List (MinRow F × Nat) → List (MinRow F × Nat)) : Prop :=
  ∀ l, (ord l).Perm l ∧ (ord l).Pairwise (fun a b => b.2 ≤ a.2)

/-- The clause
`QUALIFY ROW_NUMBER() OVER (PARTITION BY symbol, datetime ORDER BY _priority DESC) = 1`:
of every group the row numbered 1 is kept. -/
def qualifyRowNumberOne {F : Type} (ord : List (MinRow F × Nat) → List (MinRow F × Nat))
    (rows : List (MinRow F × Nat)) : List (MinRow F × Nat) :=
  ((rows.map (fun r => r.1.key)).dedup).filterMap (fun k => (ord (partitionOf rows k)).head?)

/-- The view `v_stocks_5min` of `Create5MinStockViews` (`query3`), over the
contents of its three layers; `* EXCLUDE (_priority)` drops the tag. -/
def v_stocks_5min {F : Type} (ord : List (MinRow F × Nat) → List (MinRow F × Nat))
    (cold temp raw : List (MinRow F)) : List (MinRow F) :=
  (qualifyRowNumberOne ord (unionAllLayers cold temp raw)).map (fun r => r.1)

/-- The view `v_stocks_daily` of `CreateDailyStockViews`:
`SELECT * FROM raw_stocks_daily UNION ALL SELECT * FROM raw_stocks_daily_temp`. -/
def v_stocks_daily {F : Type} (raw temp : List (DailyRow F)) : List (DailyRow F) :=
  raw ++ temp

/-- The rows of a 5-minute relation that carry the key `k`. -/
def rowsWithKey {F : Type} (view : List (MinRow F)) (k : Option String × Option Int) :
    List (MinRow F) :=
  view.filter (fun r => r.key = k)

/-- The rows of a daily relation that carry the key `k`. -/
def dailyRowsWithKey {F : Type} (view : List (DailyRow F)) (k : Option String × Option Int) :
    List (DailyRow F) :=
  view.filter (fun r => r.key = k)

/-! ## The outcomes of the rounds of the download loop -/

/-- What the collaborators answer in one round of the loop: the status and the
error of `DownloadFile`, and the error of `UnzipFile`, which is called only
after status 200. -/
structure Outcome where
  status : Int
  err : Option String
  unzipErr : Option String
  deriving DecidableEq, Repr

/-- The date of the round is resolved: the download answered 200 and the
extraction succeeded. -/
def Outcome.resolved (o : Outcome) : Bool :=
  decide (o.status = 200) && o.unzipErr.isNone

/-- The line printed after a download that answered 200. -/
def msgDownloaded {F X : Type} (env : Env F X) (date : Int) : String :=
  "✅ 已下载 " ++ env.formatDate "20060102" date ++ " 的数据\n"

/-- The line printed after a failed extraction. -/
def msgUnzipFailed {F X : Type} (env : Env F X) (p : KindParams) (date : Int) (e : String) :
    String :=
  "⚠️ 解压文件 " ++ dlPath env p date ++ " 失败: " ++ e ++ "\n"

/-- The calls of a round of the loop for `date` whose outcome is `o` and which
does not leave the function. -/
def roundCalls {F X : Type} (env : Env F X) (p : KindParams) (date : Int) (o : Outcome) :
    List Call :=
  if o.status = 200 then
    match o.unzipErr with
    | some e =>
      [Call.downloadFile (dlUrl env p date) (dlPath env p date),
        Call.print (msgDownloaded env date),
        Call.unzipFile (dlPath env p date) p.targetPath,
        Call.print (msgUnzipFailed env p date e)]
    | none =>
      [Call.downloadFile (dlUrl env p date) (dlPath env p date),
        Call.print (msgDownloaded env date),
        Call.unzipFile (dlPath env p date) p.targetPath]
  else if o.status = 404 then
    [Call.downloadFile (dlUrl env p date) (dlPath env p date), Call.print (msg404 env date)]
  else [Call.downloadFile (dlUrl env p date) (dlPath env p date)]

/-- The collaborators answer the rounds of the loop, entered with the log `log`,
by the given outcomes: in the round of each date the download answers the
status and error of its outcome, and after status 200 the extraction answers
the extraction error of its outcome. -/
def Answers {F X : Type} (env : Env F X) (p : KindParams) :
    List (Int × Outcome) → List Call → Prop
  | [], _ => True
  | (date, o) :: rest, log =>
    env.downloadFile log (dlUrl env p date) (dlPath env p date) = (o.status, o.err)
      ∧ (o.status = 200 →
          env.exec (log ++ [Call.downloadFile (dlUrl env p date) (dlPath env p date)]
              ++ [Call.print (msgDownloaded env date)])
            (Call.unzipFile (dlPath env p date) p.targetPath) = o.unzipErr)
      ∧ Answers env p rest (log ++ roundCalls env p date o)

/-! ## The SQL text of the adjusted-price views

`CreateQfqView` and `CreateHfqView` build their statement with `fmt.Sprintf` and
hand it to `db.Exec`. -/

/-- The call `fmt.Sprintf(format, args...)` for string operands, over the
characters of the format still to read and the operands not yet used.  The verb
`%s` prints the next operand, and `%!s(MISSING)` when none is left; `%%`
prints a percent sign; the operands left over at the end of the format are
reported as `%!(EXTRA string=a, string=b)`.  The value is `none` for a format
with another verb. -/
def sprintfAux : List Char → List String → Option (List Char)
  | [], [] => some []
  | [], a :: args =>
    some ("%!(EXTRA ".data
      ++ (String.intercalate ", " ((a :: args).map (fun x => "string=" ++ x))).data ++ [')'])
  | c :: cs, args =>
    if c = '%' then
      match cs, args with
      | 's' :: rest, a :: args1 => (sprintfAux rest args1).map (fun t => a.data ++ t)
      | 's' :: rest, [] => (sprintfAux rest []).map (fun t => "%!s(MISSING)".data ++ t)
      | '%' :: rest, args1 => (sprintfAux rest args1).map (fun t => '%' :: t)
      | _, _ => none
    else (sprintfAux cs args).map (fun t => c :: t)

/-- The function `fmt.Sprintf` for string operands. -/
def sprintf (format : String) (args : List String) : Option String :=
  (sprintfAux format.data args).map String.mk

/-- The field `StocksSchema.Name` of `database/stock.go`. -/
def StocksSchemaName : String := "raw_stocks_daily"

/-- The format string of `CreateQfqView`. -/
def qfqViewFormat : String :=
  "\n"
    ++ "\tCREATE OR REPLACE VIEW %s AS\n"
    ++ "\tSELECT\n"
    ++ "\t\ts.symbol,\n"
    ++ "\t\ts.date,\n"
    ++ "\t\ts.volume,\n"
    ++ "\t\ts.amount,\n"
    ++ "\t\tROUND(s.open  * f.qfq_factor, 2) AS open,\n"
    ++ "\t\tROUND(s.high  * f.qfq_factor, 2) AS high,\n"
    ++ "\t\tROUND(s.low   * f.qfq_factor, 2) AS low,\n"
    ++ "\t\tROUND(s.close * f.qfq_factor, 2) AS close,\n"
    ++ "\t\tt.turnover,\n"
    ++ "\tFROM v_stocks_daily s\n"
    ++ "\tJOIN %s f ON s.symbol = f.symbol AND s.date = f.date\n"
    ++ "\tLEFT JOIN %s t ON s.symbol = t.symbol AND s.date = t.date;\n"
    ++ "\t"

/-- The format string of `CreateHfqView`. -/
def hfqViewFormat : String :=
  "\n"
    ++ "\tCREATE OR REPLACE VIEW %s AS\n"
    ++ "\tSELECT\n"
    ++ "\t\ts.symbol,\n"
    ++ "\t\ts.date,\n"
    ++ "\t\ts.volume,\n"
    ++ "\t\ts.amount,\n"
    ++ "\t\tROUND(s.open  * f.hfq_factor, 2) AS open,\n"
    ++ "\t\tROUND(s.high  * f.hfq_factor, 2) AS high,\n"
    ++ "\t\tROUND(s.low   * f.hfq_factor, 2) AS low,\n"
    ++ "\t\tROUND(s.close * f.hfq_factor, 2) AS close,\n"
    ++ "\t\tt.turnover,\n"
    ++ "\tFROM v_stocks_daily s\n"
    ++ "\tJOIN %s f ON s.symbol = f.symbol AND s.date = f.date\n"
    ++ "\tLEFT JOIN %s t ON s.symbol = t.symbol AND s.date = t.date;\n"
    ++ "\t"

/-- The `query` of `CreateQfqView`.  `FactorSchema.Name` and `TurnoverViewName` are
declared outside the files at hand and are the two parameters. -/
def CreateQfqView_query (factorSchemaName turnoverViewName : String) : Option String :=
  sprintf qfqViewFormat [QfqViewName, StocksSchemaName, factorSchemaName, turnoverViewName]

/-- The `query` of `CreateHfqView`. -/
def CreateHfqView_query (factorSchemaName turnoverViewName : String) : Option String :=
  sprintf hfqViewFormat [HfqViewName, StocksSchemaName, factorSchemaName, turnoverViewName]

/-! ## The decoder and tool calls of a cycle -/

/-- The calls to the format decoder (`ConvertFiles2Csv`, `ConvertGbbqFile2Csv`)
and to the transcoding tool (`DatatoolCreate`). -/
def Call.isDecode : Call → Bool
  | Call.datatoolCreate _ _ _ => true
  | Call.convertFiles2Csv _ _ _ _ => true
  | Call.convertGbbqFile2Csv _ _ => true
  | _ => false

/-- Every decoder or tool call among the calls `ext`, made one after the other
from the log `s` on, answered without an error. -/
def DecodesOk {F X : Type} (env : Env F X) : List Call → List Call → Prop
  | _, [] => True
  | s, c :: ext => (c.isDecode = true → env.exec s c = none) ∧ DecodesOk env (s ++ [c]) ext

/-- What holds of a step of the cycle entered with the log `s` that returns the
error `r.1` and the log `r.2`: the log has only grown, and either every decoder
or tool call of the step succeeded, or its last call is a decoder or tool call
that failed, all those before it succeeded, and the step returns the error of
that call behind some prefix. -/
def StageInv {F X : Type} (env : Env F X) (s : List Call) (r : Option String × List Call) :
    Prop :=
  ∃ ext, r.2 = s ++ ext ∧
    (DecodesOk env s ext ∨
      ∃ mid c e msg, ext = mid ++ [c] ∧ DecodesOk env s mid ∧ c.isDecode = true
        ∧ env.exec (s ++ mid) c = some e ∧ r.1 = some (msg ++ e))

/-! ## Concrete collaborators for the examples -/

/-- A `Time.Format` for the examples: the first days after Go's zero time,
which is 1 January of year 1. -/
def demoFormatDate (layout : String) (t : Int) : String :=
  if layout = "2006-01-02" then
    if t = 1 * day then "0001-01-02"
    else if t = 2 * day then "0001-01-03"
    else if t = 3 * day then "0001-01-04"
    else "0001-01-01"
  else
    if t = 1 * day then "00010102"
    else if t = 2 * day then "00010103"
    else if t = 3 * day then "00010104"
    else "00010101"

/-- Collaborators that all succeed, the download of the day archive of
0001-01-03 apart, which answers `r2`. -/
def demoEnv (r2 : Int × Option String) : Env Int Unit where
  pathJoin := fun parts => String.intercalate "/" parts
  formatDate := demoFormatDate
  formatFloat4 := fun _ => "1.0000"
  exec := fun _ _ => none
  downloadFile := fun _ url _ =>
    if url = "https://www.tdx.com.cn/products/data/data/g4day/00010103.zip" then r2 else (200, none)
  getStockTableLatestDate := fun _ => .ok 0
  queryAllXdxr := fun _ => .ok []
  queryAllSymbols := fun _ => .ok []
  queryStockData := fun _ => .ok []
  calculateFqFactor := fun _ _ => .ok []

/-- A configuration whose `Today` is 0001-01-04. -/
def demoCfg : Config where
  Today := 3 * day
  DataDir := "/data"
  VipdocDir := "/data/vipdoc"
  StockCSV := "/data/stock.csv"
  OneMinLineCSV := "/data/1min.csv"
  FiveMinLineCSV := "/data/5min.csv"
  ValidPrefixes := ["sh60"]
  XdxrViewName := "v_xdxr"
  TurnoverViewName := "v_turnover"

/-- The `day` parameters under `demoEnv` and `demoCfg`. -/
def demoDay : KindParams :=
  ⟨"/data/vipdoc/refmhq",
    fun s => "https://www.tdx.com.cn/products/data/data/g4day/" ++ s ++ ".zip", "day", "日线"⟩


/-- An engine that numbers the rows of a group by a stable insertion sort on
descending priority. -/
def demoOrd (l : List (MinRow Int × Nat)) : List (MinRow Int × Nat) :=
  l.insertionSort (fun a b => b.2 ≤ a.2)

/-- A 5-minute bar of `sh600000` at time `t` whose close is `c`. -/
def demoBar (t c : Int) : MinRow Int :=
  ⟨some "sh600000", some c, some c, some c, some c, some 0, some 0, some t⟩

/-- A daily bar of `sh600000` on day `t`. -/
def demoDaily (t : Int) : DailyRow Int :=
  ⟨some "sh600000", some 10, some 10, some 10, some 10, some 0, some 0, some t⟩

/-- A daily price point of `sh600000`. -/
def demoPrice (t : Int) : StockData Int := ⟨"sh600000", 10, 10, 10, 10, 0, 0, t⟩

/-- A calculator for the examples: one factor per price point, in order. -/
def demoCalc (stockData : List (StockData Int)) (_xdxr : List (XdxrData Unit)) :
    Except String (List (Factor Int)) :=
  .ok (stockData.map (fun pt => ⟨pt.Symbol, pt.Date, pt.Close, pt.Close, 1, 1⟩))

/-- Collaborators for `UpdateFactors`: the store knows `sh600000`, with two
price points, `sz000001`, whose price query fails, and `sh600001`, with one. -/
def demoFactorEnv : Env Int Unit where
  pathJoin := fun parts => String.intercalate "/" parts
  formatDate := demoFormatDate
  formatFloat4 := fun _ => "1.0000"
  exec := fun _ _ => none
  downloadFile := fun _ _ _ => (200, none)
  getStockTableLatestDate := fun _ => .ok 0
  queryAllXdxr := fun _ => .ok [⟨"600000", ()⟩]
  queryAllSymbols := fun _ => .ok ["sh600000", "sz000001", "sh600001"]
  queryStockData := fun sym =>
    if sym = "sh600000" then .ok [demoPrice (1 * day), demoPrice (2 * day)]
    else if sym = "sh600001" then .ok [⟨"sh600001", 10, 10, 10, 10, 0, 0, 1 * day⟩]
    else .error "no rows"
  calculateFqFactor := demoCalc

/-- Collaborators that all succeed, the vendor tool apart, which fails. -/
def demoToolFails : Env Int Unit where
  pathJoin := fun parts => String.intercalate "/" parts
  formatDate := demoFormatDate
  formatFloat4 := fun _ => "1.0000"
  exec := fun _ c =>
    match c with
    | Call.datatoolCreate _ _ _ => some "exit status 1"
    | _ => none
  downloadFile := fun _ _ _ => (200, none)
  getStockTableLatestDate := fun _ => .ok (2 * day)
  queryAllXdxr := fun _ => .ok []
  queryAllSymbols := fun _ => .ok []
  queryStockData := fun _ => .ok []
  calculateFqFactor := fun _ _ => .ok []

/-- Collaborators for the day archives: the archive of 0001-01-02 is downloaded
but cannot be extracted, the download of 0001-01-03 answers status 500 with no
error value, the archive of 0001-01-04 is downloaded and extracted. -/
def demoMixedEnv : Env Int Unit where
  pathJoin := fun parts => String.intercalate "/" parts
  formatDate := demoFormatDate
  formatFloat4 := fun _ => "1.0000"
  exec := fun _ c =>
    if c = Call.unzipFile "/data/vipdoc/refmhq/00010102day.zip" "/data/vipdoc/refmhq" then
      some "zip: not a valid zip file"
    else none
  downloadFile := fun _ url _ =>
    if url = "https://www.tdx.com.cn/products/data/data/g4day/00010103.zip" then (500, none)
    else (200, none)
  getStockTableLatestDate := fun _ => .ok 0
  queryAllXdxr := fun _ => .ok []
  queryAllSymbols := fun _ => .ok []
  queryStockData := fun _ => .ok []
  calculateFqFactor := fun _ _ => .ok []

/-- The outcomes of the three rounds under `demoMixedEnv`. -/
def demoMixedRounds : List (Int × Outcome) :=
  [(1 * day, ⟨200, none, some "zip: not a valid zip file"⟩), (2 * day, ⟨500, none, none⟩),
    (3 * day, ⟨200, none, none⟩)]

/-- Collaborators for `UpdateFactors` that all succeed: the store lists the
symbols `sh600000` and `a`, every price query returns one price point and the
calculator returns one factor per price point. -/
def demoShortSymbolEnv : Env Int Unit where
  pathJoin := fun parts => String.intercalate "/" parts
  formatDate := demoFormatDate
  formatFloat4 := fun _ => "1.0000"
  exec := fun _ _ => none
  downloadFile := fun _ _ _ => (200, none)
  getStockTableLatestDate := fun _ => .ok 0
  queryAllXdxr := fun _ => .ok [⟨"600000", ()⟩]
  queryAllSymbols := fun _ => .ok ["sh600000", "a"]
  queryStockData := fun sym => .ok [⟨sym, 10, 10, 10, 10, 0, 0, 1 * day⟩]
  calculateFqFactor := demoCalc
/-! ## Facts about the date loop -/

theorem datesLoop_of_lt (today d : Int) (acc : List Int) (h : today < d) :
    datesLoop today d acc = acc := by
  rw [datesLoop]
  simp [not_le.mpr h]

theorem datesLoop_of_le (today d : Int) (acc : List Int) (h : d ≤ today) :
    datesLoop today d acc = datesLoop today (d + day) (acc ++ [d]) := by
  rw [datesLoop]
  simp [h, day]

/-- After `n` more rounds the loop has appended `d, d + day, ..., d + (n-1) * day`. -/
theorem datesLoop_eq_range (today : Int) (n : Nat) :
    ∀ (d : Int) (acc : List Int), d + (n : Int) * day ≤ today + day → today < d + (n : Int) * day →
      datesLoop today d acc = acc ++ (List.range n).map (fun (k : Nat) => d + (k : Int) * day) := by
  have hday : (0 : Int) < day := by norm_num [day, Hour]
  induction n with
  | zero =>
    intro d acc _ h2
    simp at h2
    simp [datesLoop_of_lt today d acc h2]
  | succ n ih =>
    intro d acc h1 h2
    have hn : (0 : Int) ≤ (n : Int) * day := mul_nonneg (Int.ofNat_nonneg n) hday.le
    have hd : d ≤ today := by push_cast at h1; linarith
    rw [datesLoop_of_le today d acc hd, ih (d + day) (acc ++ [d])
      (by push_cast at h1; linarith) (by push_cast at h2; linarith)]
    rw [List.range_succ_eq_map]
    simp only [List.map_cons, List.map_map, List.append_assoc, List.singleton_append]
    congr 1
    simp only [Nat.cast_zero, zero_mul, add_zero, List.cons.injEq, true_and]
    apply List.map_congr_left
    intro k _
    simp only [Function.comp, Nat.cast_succ]
    ring

theorem candidateDates_eq_range (a b : Int) (h : a ≤ b) :
    candidateDates (b * day) (a * day)
      = (List.range (b - a).toNat).map (fun (k : Nat) => (a + 1 + (k : Int)) * day) := by
  have hn : (((b - a).toNat : Nat) : Int) = b - a := Int.toNat_of_nonneg (by linarith)
  have hday : (24 : Int) * Hour = day := rfl
  unfold candidateDates
  rw [hday, datesLoop_eq_range (b * day) (b - a).toNat (a * day + day) []
    (by rw [hn]; linarith [show (b - a) * day = b * day - a * day by ring])
    (by rw [hn]; have : (0 : Int) < day := by norm_num [day, Hour]
        linarith [show (b - a) * day = b * day - a * day by ring])]
  simp only [List.nil_append]
  apply List.map_congr_left
  intro k _
  ring

theorem candidateDates_of_le (today latestDate : Int) (h : today ≤ latestDate) :
    candidateDates today latestDate = [] := by
  unfold candidateDates
  apply datesLoop_of_lt
  have : (0 : Int) < 24 * Hour := by norm_num [Hour]
  linarith

theorem candidateDates_pairwise (today latestDate : Int) :
    (candidateDates today latestDate).Pairwise (· < ·) := by
  have hday : (0 : Int) < day := by norm_num [day, Hour]
  by_cases h : today < latestDate + day
  · have : candidateDates today latestDate = [] := datesLoop_of_lt _ _ _ h
    rw [this]; exact List.Pairwise.nil
  · push_neg at h
    -- the number of rounds is `(today - latestDate) / day`
    obtain ⟨n, hn⟩ : ∃ n : Nat, ((n : Nat) : Int) = (today - latestDate) / day :=
      ⟨((today - latestDate) / day).toNat,
        Int.toNat_of_nonneg (Int.ediv_nonneg (by linarith) hday.le)⟩
    have h1 := Int.ediv_mul_le (today - latestDate) (ne_of_gt hday)
    have h2 := Int.lt_ediv_add_one_mul_self (today - latestDate) hday
    have hd : (24 : Int) * Hour = day := rfl
    unfold candidateDates
    rw [hd, datesLoop_eq_range today n (latestDate + day) []
      (by rw [hn]; linarith) (by rw [hn]; linarith)]
    simp only [List.nil_append]
    rw [List.pairwise_map]
    refine List.Pairwise.imp ?_ (List.pairwise_lt_range n)
    intro i j hij
    have : (i : Int) < j := by exact_mod_cast hij
    nlinarith

theorem candidateDates_nodup (today latestDate : Int) :
    (candidateDates today latestDate).Nodup :=
  (candidateDates_pairwise today latestDate).imp (fun h => ne_of_lt h)

/-! ## C1, C2: the candidate dates -/

/-- C1: with `lastSyncedDate = a` days and `Today = b` days, `a < b`, the candidate
dates of `prepareTdxData` are exactly the days `a + 1, a + 2, ..., b`: the
`k`-th one is day `a + 1 + k`, there are `b - a` of them, they are strictly
ascending (so each occurs once), and a time is among them exactly when it is a
whole day `j` with `a < j ≤ b`. -/
theorem candidateDates_exact (a b : Int) (h : a < b) :
    candidateDates (b * day) (a * day)
        = (List.range (b - a).toNat).map (fun (k : Nat) => (a + 1 + (k : Int)) * day)
      ∧ ((candidateDates (b * day) (a * day)).length : Int) = b - a
      ∧ (candidateDates (b * day) (a * day)).Pairwise (· < ·)
      ∧ (candidateDates (b * day) (a * day)).head? = some ((a + 1) * day)
      ∧ (candidateDates (b * day) (a * day)).getLast? = some (b * day)
      ∧ ∀ t : Int, t ∈ candidateDates (b * day) (a * day) ↔ ∃ j : Int, a < j ∧ j ≤ b ∧ t = j * day := by
  have hn : (((b - a).toNat : Nat) : Int) = b - a := Int.toNat_of_nonneg (by linarith)
  have hpos : 0 < (b - a).toNat := by
    have : (0 : Int) < ((b - a).toNat : Nat) := by rw [hn]; linarith
    exact_mod_cast this
  have heq := candidateDates_eq_range a b h.le
  refine ⟨heq, ?_, candidateDates_pairwise _ _, ?_, ?_, ?_⟩
  · rw [heq, List.length_map, List.length_range, hn]
  · obtain ⟨m, hm⟩ : ∃ m, (b - a).toNat = m + 1 := ⟨(b - a).toNat - 1, by omega⟩
    rw [heq, hm, List.range_succ_eq_map]
    simp
  · obtain ⟨m, hm⟩ : ∃ m, (b - a).toNat = m + 1 := ⟨(b - a).toNat - 1, by omega⟩
    have hb : a + 1 + (m : Int) = b := by
      have : (((b - a).toNat : Nat) : Int) = (m : Int) + 1 := by rw [hm]; push_cast; rfl
      linarith
    rw [heq, hm, List.range_succ, List.map_append]
    simp [hb]
  · intro t
    rw [heq, List.mem_map]
    constructor
    · rintro ⟨k, hk, rfl⟩
      have hk1 : k < (b - a).toNat := List.mem_range.mp hk
      have hk2 : (k : Int) < b - a := by rw [← hn]; exact_mod_cast hk1
      exact ⟨a + 1 + k, by linarith [Int.ofNat_nonneg k], by linarith, rfl⟩
    · rintro ⟨j, h1, h2, rfl⟩
      refine ⟨(j - a - 1).toNat, List.mem_range.mpr ?_, ?_⟩
      · have : ((j - a - 1).toNat : Int) = j - a - 1 := Int.toNat_of_nonneg (by linarith)
        have : (((j - a - 1).toNat : Nat) : Int) < (((b - a).toNat : Nat) : Int) := by
          rw [this, hn]; linarith
        exact_mod_cast this
      · have : ((j - a - 1).toNat : Int) = j - a - 1 := Int.toNat_of_nonneg (by linarith)
        rw [this]; ring_nf

theorem candidateDates_exact_witness :
    (2 : Int) < 5 ∧ ((candidateDates (5 * day) (2 * day)).length : Int) = 5 - 2 :=
  ⟨by decide, (candidateDates_exact 2 5 (by decide)).2.1⟩

/-- C2: when `lastSyncedDate >= Today` the candidate dates are empty, and
`prepareTdxData` returns empty `validDates` and a nil error with the log of
calls unchanged, whatever the data kind and the collaborators: no directory is
created, nothing is downloaded, extracted or transcoded, nothing is printed. -/
theorem prepareTdxData_noop {F X : Type} (env : Env F X) (cfg : Config) (latestDate : Int)
    (dataType : String) (log : List Call) (h : cfg.Today ≤ latestDate) :
    candidateDates cfg.Today latestDate = []
      ∧ prepareTdxData env cfg latestDate dataType log = (([], none), log) := by
  have h0 := candidateDates_of_le cfg.Today latestDate h
  refine ⟨h0, ?_⟩
  unfold prepareTdxData prepareTdxDataFrom
  simp [h0]

theorem prepareTdxData_noop_witness :
    candidateDates demoCfg.Today (3 * day) = []
      ∧ prepareTdxData (demoEnv (200, none)) demoCfg (3 * day) "tic"
          [Call.connect "/data/tdx.db"] = (([], none), [Call.connect "/data/tdx.db"]) :=
  prepareTdxData_noop (demoEnv (200, none)) demoCfg (3 * day) "tic" [Call.connect "/data/tdx.db"]
    (by decide)

/-! ## Facts about the download loop -/

theorem downloadLoop_404 {F X : Type} (env : Env F X) (p : KindParams) (d : Int)
    (rest v : List Int) (log : List Call)
    (h : (env.downloadFile log (dlUrl env p d) (dlPath env p d)).1 = 404) :
    downloadLoop env p (d :: rest) v log
      = downloadLoop env p rest v
          (log ++ [Call.downloadFile (dlUrl env p d) (dlPath env p d), Call.print (msg404 env d)]) := by
  unfold dlUrl dlPath at h
  simp [downloadLoop, dlUrl, dlPath, msg404, h]

theorem downloadLoop_append {F X : Type} (env : Env F X) (p : KindParams) (post : List Int) :
    ∀ (pre v : List Int) (log : List Call),
      downloadLoop env p (pre ++ post) v log
        = match downloadLoop env p pre v log with
          | (none, l) => (none, l)
          | (some v1, l1) => downloadLoop env p post v1 l1 := by
  intro pre
  induction pre with
  | nil => intro v log; simp [downloadLoop]
  | cons d pre ih =>
    intro v log
    simp only [List.cons_append, downloadLoop]
    split_ifs
    · split <;> exact ih _ _
    · exact ih _ _
    · split
      · rfl
      · exact ih _ _

/-- The valid dates only grow, by dates taken in order from the visited ones. -/
theorem downloadLoop_valid {F X : Type} (env : Env F X) (p : KindParams) :
    ∀ (ds v : List Int) (log : List Call) (v1 : List Int) (l1 : List Call),
      downloadLoop env p ds v log = (some v1, l1) → ∃ w, v1 = v ++ w ∧ w.Sublist ds := by
  intro ds
  induction ds with
  | nil =>
    intro v log v1 l1 h
    simp only [downloadLoop, Prod.mk.injEq, Option.some.injEq] at h
    exact ⟨[], by simp [h.1], List.Sublist.refl _⟩
  | cons d ds ih =>
    intro v log v1 l1 h
    simp only [downloadLoop] at h
    split_ifs at h
    · split at h
      · obtain ⟨w, hw, hs⟩ := ih _ _ _ _ h
        exact ⟨w, hw, hs.cons d⟩
      · obtain ⟨w, hw, hs⟩ := ih _ _ _ _ h
        exact ⟨d :: w, by simp [hw], hs.cons₂ d⟩
    · obtain ⟨w, hw, hs⟩ := ih _ _ _ _ h
      exact ⟨w, hw, hs.cons d⟩
    · split at h
      · simp at h
      · obtain ⟨w, hw, hs⟩ := ih _ _ _ _ h
        exact ⟨w, hw, hs.cons d⟩

/-- The loop only appends to the log. -/
theorem downloadLoop_log {F X : Type} (env : Env F X) (p : KindParams) :
    ∀ (ds v : List Int) (log : List Call), log <+: (downloadLoop env p ds v log).2 := by
  intro ds
  induction ds with
  | nil => intro v log; simp [downloadLoop]
  | cons d ds ih =>
    intro v log
    simp only [downloadLoop]
    split_ifs
    · split
      · exact (List.prefix_append _ _).trans
          ((List.prefix_append _ _).trans ((List.prefix_append _ _).trans (ih _ _)))
      · exact (List.prefix_append _ _).trans
          ((List.prefix_append _ _).trans ((List.prefix_append _ _).trans (ih _ _)))
    · exact (List.prefix_append _ _).trans ((List.prefix_append _ _).trans (ih _ _))
    · split
      · exact List.prefix_append _ _
      · exact (List.prefix_append _ _).trans (ih _ _)

/-- The first thing the loop does with a date is to download it. -/
theorem downloadLoop_attempts_head {F X : Type} (env : Env F X) (p : KindParams) (d : Int)
    (rest v : List Int) (log : List Call) :
    Call.downloadFile (dlUrl env p d) (dlPath env p d) ∈ (downloadLoop env p (d :: rest) v log).2 := by
  have key : ∀ (l : List Call), log ++ [Call.downloadFile (dlUrl env p d) (dlPath env p d)] <+: l →
      Call.downloadFile (dlUrl env p d) (dlPath env p d) ∈ l := by
    intro l hl
    exact hl.subset (by simp)
  apply key
  simp only [downloadLoop, dlUrl, dlPath]
  split_ifs
  · split
    · exact (List.prefix_append _ _).trans ((List.prefix_append _ _).trans (downloadLoop_log _ _ _ _ _))
    · exact (List.prefix_append _ _).trans ((List.prefix_append _ _).trans (downloadLoop_log _ _ _ _ _))
  · exact (List.prefix_append _ _).trans (downloadLoop_log _ _ _ _ _)
  · split
    · exact List.prefix_refl _
    · exact downloadLoop_log _ _ _ _ _

theorem transcode_log {F X : Type} (env : Env F X) (cfg : Config) (dataType : String)
    (v : List Int) (log : List Call) : log <+: (transcode env cfg dataType v log).2 := by
  unfold transcode
  cases v.getLast? with
  | none => exact List.prefix_refl _
  | some endDate =>
    dsimp only
    split_ifs
    · cases env.exec log (Call.datatoolCreate cfg.DataDir "day" endDate) <;> simp
    · cases env.exec (log ++ [Call.print "🐢 开始转档分笔数据\n"])
        (Call.datatoolCreate cfg.DataDir "tick" endDate) with
      | some e => simp
      | none =>
        dsimp only
        cases env.exec (log ++ [Call.print "🐢 开始转档分笔数据\n"] ++
          [Call.datatoolCreate cfg.DataDir "tick" endDate, Call.print "🐢 开始转换分钟数据\n"])
          (Call.datatoolCreate cfg.DataDir "min" endDate) <;> simp
    · exact List.prefix_refl _

/-- The valid dates that `transcode` returns are those it was given, or none. -/
theorem transcode_valid {F X : Type} (env : Env F X) (cfg : Config) (dataType : String)
    (v : List Int) (log : List Call) :
    (transcode env cfg dataType v log).1.1 = v ∨ (transcode env cfg dataType v log).1.1 = [] := by
  unfold transcode
  cases v.getLast? with
  | none => exact Or.inl rfl
  | some endDate =>
    dsimp only
    split_ifs
    · cases env.exec log (Call.datatoolCreate cfg.DataDir "day" endDate) <;> simp
    · cases env.exec (log ++ [Call.print "🐢 开始转档分笔数据\n"])
        (Call.datatoolCreate cfg.DataDir "tick" endDate) with
      | some e => simp
      | none =>
        dsimp only
        cases env.exec (log ++ [Call.print "🐢 开始转档分笔数据\n"] ++
          [Call.datatoolCreate cfg.DataDir "tick" endDate, Call.print "🐢 开始转换分钟数据\n"])
          (Call.datatoolCreate cfg.DataDir "min" endDate) <;> simp
    · exact Or.inl rfl

/-! ## C3: a date answered 404 -/

/-- C3: let the download loop reach the candidate date `d` (after the dates `pre`,
with valid dates `v1` and log `l1`) and let the download of `d` answer status 404,
with or without an error value.  Then `prepareTdxData` goes on with the dates
`post` after `d` from the same valid dates, so `d` causes no return; the next date
is downloaded; an error can only still come from the vendor tool run after the
loop; and `d`, when it is listed once among the candidates, is not in the
returned `validDates`. -/
theorem prepareTdxData_skips_404 {F X : Type} (env : Env F X) (cfg : Config)
    (dataType : String) (p : KindParams) (pre post : List Int) (d : Int) (log : List Call)
    (v1 : List Int) (l1 : List Call)
    (hp : kindParams env cfg dataType = some p)
    (hmk : env.exec log (Call.mkdirAll p.targetPath) = none)
    (hpre : downloadLoop env p pre []
      (log ++ [Call.mkdirAll p.targetPath, Call.print (msgStart p)]) = (some v1, l1))
    (h404 : (env.downloadFile l1 (dlUrl env p d) (dlPath env p d)).1 = 404) :
    prepareTdxDataFrom env cfg (pre ++ d :: post) dataType log
        = (match downloadLoop env p post v1
            (l1 ++ [Call.downloadFile (dlUrl env p d) (dlPath env p d),
              Call.print (msg404 env d)]) with
          | (none, l3) => (([], none), l3)
          | (some validDates, l3) => transcode env cfg dataType validDates l3)
      ∧ (∀ d1 post1, post = d1 :: post1 →
          Call.downloadFile (dlUrl env p d1) (dlPath env p d1)
            ∈ (prepareTdxDataFrom env cfg (pre ++ d :: post) dataType log).2)
      ∧ (∀ e, (prepareTdxDataFrom env cfg (pre ++ d :: post) dataType log).1.2 = some e →
          ∃ v3 l3, downloadLoop env p post v1
              (l1 ++ [Call.downloadFile (dlUrl env p d) (dlPath env p d),
                Call.print (msg404 env d)]) = (some v3, l3)
            ∧ (transcode env cfg dataType v3 l3).1.2 = some e)
      ∧ ((pre ++ d :: post).Nodup →
          d ∉ (prepareTdxDataFrom env cfg (pre ++ d :: post) dataType log).1.1) := by
  have hrun : prepareTdxDataFrom env cfg (pre ++ d :: post) dataType log
      = (match downloadLoop env p post v1
          (l1 ++ [Call.downloadFile (dlUrl env p d) (dlPath env p d),
            Call.print (msg404 env d)]) with
        | (none, l3) => (([], none), l3)
        | (some validDates, l3) => transcode env cfg dataType validDates l3) := by
    unfold msgStart at hpre
    unfold prepareTdxDataFrom
    simp only [List.length_append, List.length_cons, hp, hmk]
    rw [if_neg (by omega), downloadLoop_append, hpre]
    simp only []
    rw [downloadLoop_404 env p d post v1 l1 h404]
  refine ⟨hrun, ?_, ?_, ?_⟩
  · rintro d1 post1 rfl
    rw [hrun]
    have hmem := downloadLoop_attempts_head env p d1 post1 v1
      (l1 ++ [Call.downloadFile (dlUrl env p d) (dlPath env p d), Call.print (msg404 env d)])
    revert hmem
    cases downloadLoop env p (d1 :: post1) v1
      (l1 ++ [Call.downloadFile (dlUrl env p d) (dlPath env p d),
        Call.print (msg404 env d)]) with
    | mk o l3 =>
      intro hmem
      cases o with
      | none => exact hmem
      | some v3 => exact (transcode_log env cfg dataType v3 l3).subset hmem
  · intro e he
    rw [hrun] at he
    revert he
    cases downloadLoop env p post v1
      (l1 ++ [Call.downloadFile (dlUrl env p d) (dlPath env p d),
        Call.print (msg404 env d)]) with
    | mk o l3 =>
      cases o with
      | none => intro he; simp at he
      | some v3 => intro he; exact ⟨v3, l3, rfl, he⟩
  · intro hnd
    rw [hrun]
    have hpost := downloadLoop_valid env p post v1
      (l1 ++ [Call.downloadFile (dlUrl env p d) (dlPath env p d), Call.print (msg404 env d)])
    revert hpost
    cases downloadLoop env p post v1
      (l1 ++ [Call.downloadFile (dlUrl env p d) (dlPath env p d),
        Call.print (msg404 env d)]) with
    | mk o l3 =>
      intro hpost
      cases o with
      | none => simp
      | some v3 =>
        obtain ⟨w, hw, hsub⟩ := hpost v3 l3 rfl
        obtain ⟨w1, hw1, hsub1⟩ := downloadLoop_valid env p pre [] _ v1 l1 hpre
        have hd : d ∉ v3 := by
          rw [hw, hw1]
          simp only [List.nil_append, List.mem_append, not_or]
          rw [List.nodup_append] at hnd
          obtain ⟨_, hnd2, hdisj⟩ := hnd
          constructor
          · intro hm
            exact hdisj (hsub1.subset hm) (List.mem_cons_self _ _)
          · intro hm
            exact (List.nodup_cons.mp hnd2).1 (hsub.subset hm)
        rcases transcode_valid env cfg dataType v3 l3 with h | h
        · simp only []
          rw [h]; exact hd
        · simp only []
          rw [h]; simp

theorem prepareTdxData_skips_404_witness :
    Call.downloadFile "https://www.tdx.com.cn/products/data/data/g4day/00010104.zip"
        "/data/vipdoc/refmhq/00010104day.zip"
        ∈ (prepareTdxDataFrom (demoEnv (404, some "404 Not Found")) demoCfg
            ([1 * day] ++ 2 * day :: [3 * day]) "day" []).2
      ∧ 2 * day ∉ (prepareTdxDataFrom (demoEnv (404, some "404 Not Found")) demoCfg
            ([1 * day] ++ 2 * day :: [3 * day]) "day" []).1.1 :=
  have h := prepareTdxData_skips_404 (demoEnv (404, some "404 Not Found")) demoCfg "day" demoDay
    [1 * day] [3 * day] (2 * day) [] [1 * day]
    [Call.mkdirAll "/data/vipdoc/refmhq", Call.print "🐢 开始下载日线数据\n",
      Call.downloadFile "https://www.tdx.com.cn/products/data/data/g4day/00010102.zip"
        "/data/vipdoc/refmhq/00010102day.zip",
      Call.print "✅ 已下载 00010102 的数据\n",
      Call.unzipFile "/data/vipdoc/refmhq/00010102day.zip" "/data/vipdoc/refmhq"]
    rfl rfl (by decide) (by decide)
  ⟨h.2.1 (3 * day) [] rfl, h.2.2.2 (by decide)⟩


/-! ## C4: a transient download failure -/

/-- A download that answers a status other than 200 and 404 together with an
error makes the loop leave `prepareTdxData` at once by `return nil, nil`: the
dates after it are not visited and the valid dates found so far are dropped. -/
theorem downloadLoop_transient_error {F X : Type} (env : Env F X) (p : KindParams) (d : Int)
    (rest v : List Int) (log : List Call) (e : String)
    (h200 : (env.downloadFile log (dlUrl env p d) (dlPath env p d)).1 ≠ 200)
    (h404 : (env.downloadFile log (dlUrl env p d) (dlPath env p d)).1 ≠ 404)
    (herr : (env.downloadFile log (dlUrl env p d) (dlPath env p d)).2 = some e) :
    downloadLoop env p (d :: rest) v log
      = (none, log ++ [Call.downloadFile (dlUrl env p d) (dlPath env p d)]) := by
  unfold dlUrl dlPath at h200 h404 herr
  simp [downloadLoop, dlUrl, dlPath, h200, h404, herr]

theorem demo_candidateDates : candidateDates demoCfg.Today 0 = [1 * day, 2 * day, 3 * day] := by
  simp [candidateDates, datesLoop, demoCfg, day, Hour]

/-- C4, the code at the failing input: the last synced date is 0001-01-01 and
today is 0001-01-04; the archive of 01-02 is downloaded and extracted, the
download of 01-03 answers status 500 with an error, the archive of 01-04 would
answer 200.  `prepareTdxData` returns no valid date and a nil error, and its
last call is the failed download: 01-04 is never attempted, the resolved 01-02
is lost, and the vendor tool is not run. -/
theorem prepareTdxData_transient_failure_aborts :
    prepareTdxData (demoEnv (500, some "500 Internal Server Error")) demoCfg 0 "day" []
      = (([], none),
          [Call.mkdirAll "/data/vipdoc/refmhq", Call.print "🐢 开始下载日线数据\n",
            Call.downloadFile "https://www.tdx.com.cn/products/data/data/g4day/00010102.zip"
              "/data/vipdoc/refmhq/00010102day.zip",
            Call.print "✅ 已下载 00010102 的数据\n",
            Call.unzipFile "/data/vipdoc/refmhq/00010102day.zip" "/data/vipdoc/refmhq",
            Call.downloadFile "https://www.tdx.com.cn/products/data/data/g4day/00010103.zip"
              "/data/vipdoc/refmhq/00010103day.zip"]) := by
  unfold prepareTdxData
  rw [demo_candidateDates]
  decide

/-! ## Facts about `ROW_NUMBER() ... = 1` -/

theorem mem_unionAllLayers {F : Type} (cold temp raw : List (MinRow F)) (r : MinRow F) (n : Nat) :
    (r, n) ∈ unionAllLayers cold temp raw
      ↔ (n = 1 ∧ r ∈ cold) ∨ (n = 2 ∧ r ∈ temp) ∨ (n = 3 ∧ r ∈ raw) := by
  simp only [unionAllLayers, withPriority, List.mem_append, List.mem_map, Prod.mk.injEq]
  constructor
  · rintro ((⟨a, ha, rfl, rfl⟩ | ⟨a, ha, rfl, rfl⟩) | ⟨a, ha, rfl, rfl⟩)
    · exact Or.inl ⟨rfl, ha⟩
    · exact Or.inr (Or.inl ⟨rfl, ha⟩)
    · exact Or.inr (Or.inr ⟨rfl, ha⟩)
  · rintro (⟨rfl, h⟩ | ⟨rfl, h⟩ | ⟨rfl, h⟩)
    · exact Or.inl (Or.inl ⟨r, h, rfl, rfl⟩)
    · exact Or.inl (Or.inr ⟨r, h, rfl, rfl⟩)
    · exact Or.inr ⟨r, h, rfl, rfl⟩

theorem mem_partitionOf {F : Type} (rows : List (MinRow F × Nat)) (k : Option String × Option Int)
    (r : MinRow F × Nat) : r ∈ partitionOf rows k ↔ r ∈ rows ∧ r.1.key = k := by
  simp [partitionOf]

/-- The row numbered 1 belongs to the group and no row of the group has a
higher priority. -/
theorem head_rowNumberOrder {F : Type} (ord : List (MinRow F × Nat) → List (MinRow F × Nat))
    (hord : RowNumberOrder ord) (l : List (MinRow F × Nat)) (r : MinRow F × Nat)
    (h : (ord l).head? = some r) : r ∈ l ∧ ∀ x ∈ l, x.2 ≤ r.2 := by
  obtain ⟨hperm, hsorted⟩ := hord l
  obtain ⟨tl, htl⟩ : ∃ tl, ord l = r :: tl := by
    cases hl : ord l with
    | nil => rw [hl] at h; simp at h
    | cons a tl => rw [hl] at h; simp at h; exact ⟨tl, by rw [h]⟩
  rw [htl] at hperm hsorted
  refine ⟨hperm.subset (List.mem_cons_self _ _), fun x hx => ?_⟩
  rcases List.mem_cons.mp (hperm.symm.subset hx) with rfl | hmem
  · exact le_refl _
  · exact (List.pairwise_cons.mp hsorted).1 x hmem

/-- A group that is not empty has a row numbered 1. -/
theorem head_rowNumberOrder_isSome {F : Type}
    (ord : List (MinRow F × Nat) → List (MinRow F × Nat)) (hord : RowNumberOrder ord)
    (l : List (MinRow F × Nat)) (x : MinRow F × Nat) (hx : x ∈ l) :
    ∃ r, (ord l).head? = some r := by
  cases hl : ord l with
  | nil =>
    have := (hord l).1.symm.subset hx
    rw [hl] at this
    simp at this
  | cons a tl => exact ⟨a, rfl⟩

theorem head_rowNumberOrder_nil {F : Type}
    (ord : List (MinRow F × Nat) → List (MinRow F × Nat)) (hord : RowNumberOrder ord) :
    (ord []).head? = none := by
  have := (hord []).1
  rw [List.perm_nil] at this
  rw [this]; rfl

/-- Among the kept rows, those of key `k` are the row numbered 1 in the group of `k`. -/
theorem filter_key_filterMap_head {F : Type}
    (ord : List (MinRow F × Nat) → List (MinRow F × Nat)) (hord : RowNumberOrder ord)
    (rows : List (MinRow F × Nat)) (k : Option String × Option Int) :
    ∀ ks : List (Option String × Option Int), ks.Nodup →
      (ks.filterMap (fun k1 => (ord (partitionOf rows k1)).head?)).filter (fun r => r.1.key = k)
        = if k ∈ ks then ((ord (partitionOf rows k)).head?).toList else [] := by
  intro ks
  induction ks with
  | nil => intro _; simp
  | cons k1 ks ih =>
    intro hnd
    obtain ⟨hk1, hnd1⟩ := List.nodup_cons.mp hnd
    have ih1 := ih hnd1
    cases hg : (ord (partitionOf rows k1)).head? with
    | none =>
      simp only [List.filterMap_cons, hg]
      rw [ih1]
      by_cases hk : k = k1
      · subst hk
        simp [hk1, hg]
      · simp [hk]
    | some r =>
      have hkey : r.1.key = k1 :=
        ((mem_partitionOf rows k1 r).mp (head_rowNumberOrder ord hord _ r hg).1).2
      simp only [List.filterMap_cons, hg]
      by_cases hk : k = k1
      · subst hk
        rw [List.filter_cons_of_pos (by simp [hkey]), ih1]
        simp [hk1, hg]
      · rw [List.filter_cons_of_neg (by simp [hkey]; exact fun h => hk h.symm), ih1]
        simp [hk]

/-- The rows of key `k` in `v_stocks_5min`: the row numbered 1 in the group of
`k`, without its priority tag, and nothing when the group is empty. -/
theorem rowsWithKey_v_stocks_5min {F : Type}
    (ord : List (MinRow F × Nat) → List (MinRow F × Nat)) (hord : RowNumberOrder ord)
    (cold temp raw : List (MinRow F)) (k : Option String × Option Int) :
    rowsWithKey (v_stocks_5min ord cold temp raw) k
      = (((ord (partitionOf (unionAllLayers cold temp raw) k)).head?).toList).map (fun r => r.1) := by
  unfold rowsWithKey v_stocks_5min qualifyRowNumberOne
  rw [List.filter_map]
  congr 1
  have h := filter_key_filterMap_head ord hord (unionAllLayers cold temp raw) k
    ((unionAllLayers cold temp raw).map (fun r => r.1.key)).dedup (List.nodup_dedup _)
  have hfun : ((fun r : MinRow F => decide (r.key = k)) ∘ fun r : MinRow F × Nat => r.1)
      = fun r : MinRow F × Nat => decide (r.1.key = k) := rfl
  rw [hfun, h]
  split_ifs with hk
  · rfl
  · have hempty : partitionOf (unionAllLayers cold temp raw) k = [] := by
      rw [List.eq_nil_iff_forall_not_mem]
      intro r hr
      apply hk
      rw [List.mem_dedup, List.mem_map]
      exact ⟨r, ((mem_partitionOf _ _ _).mp hr).1, ((mem_partitionOf _ _ _).mp hr).2⟩
    rw [hempty, head_rowNumberOrder_nil ord hord]
    rfl

theorem demoOrd_rowNumberOrder : RowNumberOrder demoOrd := by
  intro l
  haveI : IsTotal (MinRow Int × Nat) (fun a b => b.2 ≤ a.2) := ⟨fun a b => Nat.le_total _ _⟩
  haveI : IsTrans (MinRow Int × Nat) (fun a b => b.2 ≤ a.2) := ⟨fun a b c h1 h2 => Nat.le_trans h2 h1⟩
  exact ⟨List.perm_insertionSort _ l, List.sorted_insertionSort _ l⟩

/-- When a tagged row of key `k` has a priority that no other row of that key
reaches, it is the one row of key `k` in `v_stocks_5min`. -/
theorem rowsWithKey_of_strict_max {F : Type}
    (ord : List (MinRow F × Nat) → List (MinRow F × Nat)) (hord : RowNumberOrder ord)
    (cold temp raw : List (MinRow F)) (k : Option String × Option Int) (x : MinRow F) (n : Nat)
    (hx : (x, n) ∈ unionAllLayers cold temp raw) (hk : x.key = k)
    (hmax : ∀ y m, (y, m) ∈ unionAllLayers cold temp raw → y.key = k → n ≤ m → y = x) :
    rowsWithKey (v_stocks_5min ord cold temp raw) k = [x] := by
  rw [rowsWithKey_v_stocks_5min ord hord]
  have hxP : (x, n) ∈ partitionOf (unionAllLayers cold temp raw) k :=
    (mem_partitionOf _ _ _).mpr ⟨hx, hk⟩
  obtain ⟨r, hr⟩ := head_rowNumberOrder_isSome ord hord _ _ hxP
  obtain ⟨hrP, hrmax⟩ := head_rowNumberOrder ord hord _ r hr
  obtain ⟨hrT, hrk⟩ := (mem_partitionOf _ _ _).mp hrP
  have : r.1 = x := hmax r.1 r.2 hrT hrk (hrmax _ hxP)
  rw [hr]
  simp [this]

/-! ## C5: the tier resolution of `v_stocks_5min` -/

/-- C5: let each of the three layers hold at most one row per `(symbol, datetime)`
key.  Then for every key `k` the rows of key `k` in `v_stocks_5min` are: the
finalized row `f` of `raw_stocks_5min` alone when there is one; else the staging
row `b` of `raw_stocks_5min_temp` alone; else the archival row `a` of
`v_cold_stocks_5min` alone; and no row when no layer holds the key.  This holds
for every order in which the engine may number rows of equal priority. -/
theorem v_stocks_5min_highest_priority {F : Type}
    (ord : List (MinRow F × Nat) → List (MinRow F × Nat)) (hord : RowNumberOrder ord)
    (cold temp raw : List (MinRow F))
    (hcold : (cold.map MinRow.key).Nodup) (htemp : (temp.map MinRow.key).Nodup)
    (hraw : (raw.map MinRow.key).Nodup) (k : Option String × Option Int) :
    (∀ f ∈ raw, f.key = k → rowsWithKey (v_stocks_5min ord cold temp raw) k = [f])
      ∧ (∀ b ∈ temp, b.key = k → (∀ f ∈ raw, f.key ≠ k) →
          rowsWithKey (v_stocks_5min ord cold temp raw) k = [b])
      ∧ (∀ a ∈ cold, a.key = k → (∀ f ∈ raw, f.key ≠ k) → (∀ b ∈ temp, b.key ≠ k) →
          rowsWithKey (v_stocks_5min ord cold temp raw) k = [a])
      ∧ ((∀ f ∈ raw, f.key ≠ k) → (∀ b ∈ temp, b.key ≠ k) → (∀ a ∈ cold, a.key ≠ k) →
          rowsWithKey (v_stocks_5min ord cold temp raw) k = []) := by
  refine ⟨?_, ?_, ?_, ?_⟩
  · intro f hf hk
    apply rowsWithKey_of_strict_max ord hord cold temp raw k f 3
      ((mem_unionAllLayers _ _ _ _ _).mpr (Or.inr (Or.inr ⟨rfl, hf⟩))) hk
    intro y m hy hyk hm
    rcases (mem_unionAllLayers _ _ _ _ _).mp hy with ⟨rfl, _⟩ | ⟨rfl, _⟩ | ⟨rfl, hy3⟩
    · omega
    · omega
    · exact List.inj_on_of_nodup_map hraw hy3 hf (hyk.trans hk.symm)
  · intro b hb hk hnoraw
    apply rowsWithKey_of_strict_max ord hord cold temp raw k b 2
      ((mem_unionAllLayers _ _ _ _ _).mpr (Or.inr (Or.inl ⟨rfl, hb⟩))) hk
    intro y m hy hyk hm
    rcases (mem_unionAllLayers _ _ _ _ _).mp hy with ⟨rfl, _⟩ | ⟨rfl, hy2⟩ | ⟨rfl, hy3⟩
    · omega
    · exact List.inj_on_of_nodup_map htemp hy2 hb (hyk.trans hk.symm)
    · exact absurd hyk (hnoraw y hy3)
  · intro a ha hk hnoraw hnotemp
    apply rowsWithKey_of_strict_max ord hord cold temp raw k a 1
      ((mem_unionAllLayers _ _ _ _ _).mpr (Or.inl ⟨rfl, ha⟩)) hk
    intro y m hy hyk hm
    rcases (mem_unionAllLayers _ _ _ _ _).mp hy with ⟨rfl, hy1⟩ | ⟨rfl, hy2⟩ | ⟨rfl, hy3⟩
    · exact List.inj_on_of_nodup_map hcold hy1 ha (hyk.trans hk.symm)
    · exact absurd hyk (hnotemp y hy2)
    · exact absurd hyk (hnoraw y hy3)
  · intro hnoraw hnotemp hnocold
    rw [rowsWithKey_v_stocks_5min ord hord]
    have hempty : partitionOf (unionAllLayers cold temp raw) k = [] := by
      rw [List.eq_nil_iff_forall_not_mem]
      rintro ⟨y, m⟩ hy
      obtain ⟨hyT, hyk⟩ := (mem_partitionOf _ _ _).mp hy
      rcases (mem_unionAllLayers _ _ _ _ _).mp hyT with ⟨_, h⟩ | ⟨_, h⟩ | ⟨_, h⟩
      · exact hnocold y h hyk
      · exact hnotemp y h hyk
      · exact hnoraw y h hyk
    rw [hempty, head_rowNumberOrder_nil ord hord]
    rfl

theorem v_stocks_5min_highest_priority_witness :
    rowsWithKey (v_stocks_5min demoOrd [demoBar 1 10, demoBar 2 10] [demoBar 2 20, demoBar 3 20]
        [demoBar 3 30]) (some "sh600000", some 3) = [demoBar 3 30]
      ∧ rowsWithKey (v_stocks_5min demoOrd [demoBar 1 10, demoBar 2 10]
        [demoBar 2 20, demoBar 3 20] [demoBar 3 30]) (some "sh600000", some 2) = [demoBar 2 20]
      ∧ rowsWithKey (v_stocks_5min demoOrd [demoBar 1 10, demoBar 2 10]
        [demoBar 2 20, demoBar 3 20] [demoBar 3 30]) (some "sh600000", some 1) = [demoBar 1 10] :=
  ⟨(v_stocks_5min_highest_priority demoOrd demoOrd_rowNumberOrder [demoBar 1 10, demoBar 2 10]
      [demoBar 2 20, demoBar 3 20] [demoBar 3 30] (by decide) (by decide) (by decide)
      (some "sh600000", some 3)).1 (demoBar 3 30) (by decide) (by decide),
    (v_stocks_5min_highest_priority demoOrd demoOrd_rowNumberOrder [demoBar 1 10, demoBar 2 10]
      [demoBar 2 20, demoBar 3 20] [demoBar 3 30] (by decide) (by decide) (by decide)
      (some "sh600000", some 2)).2.1 (demoBar 2 20) (by decide) (by decide) (by decide),
    (v_stocks_5min_highest_priority demoOrd demoOrd_rowNumberOrder [demoBar 1 10, demoBar 2 10]
      [demoBar 2 20, demoBar 3 20] [demoBar 3 30] (by decide) (by decide) (by decide)
      (some "sh600000", some 1)).2.2.1 (demoBar 1 10) (by decide) (by decide) (by decide)
      (by decide)⟩

/-! ## C6: one row per key in the served views -/

/-- C6 fails for the daily view: when a repeated sync has appended the bar of
day 1 to `raw_stocks_daily` twice, `v_stocks_daily` shows that key twice. -/
theorem v_stocks_daily_shows_duplicates :
    (dailyRowsWithKey (v_stocks_daily ([demoDaily 1] ++ [demoDaily 1]) []) (some "sh600000", some 1))
        = [demoDaily 1, demoDaily 1]
      ∧ ¬ (dailyRowsWithKey (v_stocks_daily ([demoDaily 1] ++ [demoDaily 1]) [])
          (some "sh600000", some 1)).length = 1 := by
  decide

/-- C6 as amended: for every content of its three layers, rows appended twice
included, `v_stocks_5min` holds exactly one row of every key that some layer
holds and no row of any other key; `v_stocks_daily` holds every key as many
times as `raw_stocks_daily` and `raw_stocks_daily_temp` hold it together. -/
theorem served_views_rows_per_key {F : Type}
    (ord : List (MinRow F × Nat) → List (MinRow F × Nat)) (hord : RowNumberOrder ord)
    (cold temp raw : List (MinRow F)) (dailyRaw dailyTemp : List (DailyRow F))
    (k : Option String × Option Int) :
    ((∃ r ∈ cold ++ temp ++ raw, r.key = k) →
        (rowsWithKey (v_stocks_5min ord cold temp raw) k).length = 1)
      ∧ ((∀ r ∈ cold ++ temp ++ raw, r.key ≠ k) →
        (rowsWithKey (v_stocks_5min ord cold temp raw) k).length = 0)
      ∧ (dailyRowsWithKey (v_stocks_daily dailyRaw dailyTemp) k).length
          = (dailyRowsWithKey dailyRaw k).length + (dailyRowsWithKey dailyTemp k).length := by
  refine ⟨?_, ?_, ?_⟩
  · rintro ⟨r, hr, hk⟩
    rw [rowsWithKey_v_stocks_5min ord hord]
    have hmem : ∃ n, (r, n) ∈ unionAllLayers cold temp raw := by
      simp only [List.mem_append] at hr
      rcases hr with (h | h) | h
      · exact ⟨1, (mem_unionAllLayers _ _ _ _ _).mpr (Or.inl ⟨rfl, h⟩)⟩
      · exact ⟨2, (mem_unionAllLayers _ _ _ _ _).mpr (Or.inr (Or.inl ⟨rfl, h⟩))⟩
      · exact ⟨3, (mem_unionAllLayers _ _ _ _ _).mpr (Or.inr (Or.inr ⟨rfl, h⟩))⟩
    obtain ⟨n, hn⟩ := hmem
    obtain ⟨x, hx⟩ := head_rowNumberOrder_isSome ord hord _ _
      ((mem_partitionOf _ _ (r, n)).mpr ⟨hn, hk⟩)
    rw [hx]
    rfl
  · intro hno
    rw [rowsWithKey_v_stocks_5min ord hord]
    have hempty : partitionOf (unionAllLayers cold temp raw) k = [] := by
      rw [List.eq_nil_iff_forall_not_mem]
      rintro ⟨y, m⟩ hy
      obtain ⟨hyT, hyk⟩ := (mem_partitionOf _ _ _).mp hy
      apply hno y _ hyk
      simp only [List.mem_append]
      rcases (mem_unionAllLayers _ _ _ _ _).mp hyT with ⟨_, h⟩ | ⟨_, h⟩ | ⟨_, h⟩
      · exact Or.inl (Or.inl h)
      · exact Or.inl (Or.inr h)
      · exact Or.inr h
    rw [hempty, head_rowNumberOrder_nil ord hord]
    rfl
  · simp [dailyRowsWithKey, v_stocks_daily]

theorem served_views_rows_per_key_witness :
    (rowsWithKey (v_stocks_5min demoOrd [] []
        ([demoBar 1 10, demoBar 2 10] ++ [demoBar 1 10, demoBar 2 10]))
        (some "sh600000", some 1)).length = 1 :=
  (served_views_rows_per_key demoOrd demoOrd_rowNumberOrder [] []
    ([demoBar 1 10, demoBar 2 10] ++ [demoBar 1 10, demoBar 2 10]) [demoDaily 1] []
    (some "sh600000", some 1)).1 ⟨demoBar 1 10, by decide, by decide⟩

/-! ## C7: `getXdxrByCode` -/

/-- For a symbol of at least two bytes, `getXdxrByCode` returns the entry of the
index under the bytes after the first two, and the empty list when there is none. -/
theorem getXdxrByCode_of_two_bytes {X : Type} (index : XdxrIndex X) (symbol : String)
    (h : 2 ≤ (utf8 symbol).length) :
    getXdxrByCode index symbol = some ((index ((utf8 symbol).drop 2)).getD []) := by
  unfold getXdxrByCode
  rw [if_neg (by omega)]
  dsimp only
  cases index ((utf8 symbol).drop 2) <;> rfl

/-- C7, the code at the failing inputs: for the one-byte symbol `"a"` and for the
empty symbol the slice `symbol[2:]` is out of range, and `getXdxrByCode` panics,
whatever the index. -/
theorem getXdxrByCode_panics_on_short_symbol {X : Type} (index : XdxrIndex X) :
    getXdxrByCode index "a" = none ∧ getXdxrByCode index "" = none := by
  constructor <;> rfl

/-! ## Facts about the goroutines and the writer -/

theorem foldl_append_eq_join (l : List String) :
    ∀ acc : String, l.foldl (fun r s => r ++ s) acc = acc ++ String.join l := by
  induction l with
  | nil => intro acc; simp [String.join]
  | cons a l ih =>
    intro acc
    have h1 : String.join (a :: l) = a ++ String.join l := by
      show (a :: l).foldl (fun r s => r ++ s) "" = a ++ String.join l
      rw [List.foldl_cons, String.empty_append, ih a]
    rw [List.foldl_cons, ih, h1, String.append_assoc]

theorem foldl_formatRow_eq_join {F X : Type} (env : Env F X) (factors : List (Factor F)) :
    factors.foldl (fun sb factor => sb ++ formatRow env factor) ""
      = String.join (factors.map (formatRow env)) := by
  have h := foldl_append_eq_join (factors.map (formatRow env)) ""
  rw [List.foldl_map, String.empty_append] at h
  exact h

theorem worker_ne_none {F X : Type} (env : Env F X) (index : XdxrIndex X) (sym : String)
    (h : 2 ≤ (utf8 sym).length ∨ ∃ e, env.queryStockData sym = .error e) :
    ∃ res, worker env index sym = some res := by
  unfold worker
  rcases h with h | ⟨e, he⟩
  · cases env.queryStockData sym with
    | error e => exact ⟨_, rfl⟩
    | ok stockData =>
      simp only [getXdxrByCode_of_two_bytes index sym h]
      cases env.calculateFqFactor stockData ((index ((utf8 sym).drop 2)).getD []) with
      | error e => exact ⟨_, rfl⟩
      | ok factors => exact ⟨_, rfl⟩
  · rw [he]; exact ⟨_, rfl⟩

/-- The rows that a goroutine sends without an error are the lines of the
factors of its symbol, in order; it sends an error exactly when the price query
or the factor calculation fails. -/
theorem worker_okRows {F X : Type} (env : Env F X) (index : XdxrIndex X) (sym : String)
    (res : result) (h : worker env index sym = some res) :
    okRows res
      = (factorsOf env index sym).map (fun fs => String.join (fs.map (formatRow env))) := by
  unfold worker at h
  unfold factorsOf
  cases hq : env.queryStockData sym with
  | error e =>
    rw [hq] at h
    simp only [Option.some.injEq] at h
    subst h
    rfl
  | ok stockData =>
    rw [hq] at h
    simp only at h
    cases hx : getXdxrByCode index sym with
    | none => rw [hx] at h; simp at h
    | some xdxrData =>
      rw [hx] at h
      simp only [Option.getD_some] at h ⊢
      cases hc : env.calculateFqFactor stockData xdxrData with
      | error e =>
        rw [hc] at h
        simp only [Option.some.injEq] at h
        subst h
        rfl
      | ok factors =>
        rw [hc] at h
        simp only [Option.some.injEq] at h
        subst h
        simp [okRows, foldl_formatRow_eq_join]

theorem runWorkers_eq_some {F X : Type} (env : Env F X) (index : XdxrIndex X) :
    ∀ symbols : List String,
      (∀ s ∈ symbols, 2 ≤ (utf8 s).length ∨ ∃ e, env.queryStockData s = .error e) →
      ∃ results, runWorkers env index symbols = some results
        ∧ List.Forall₂ (fun s r => worker env index s = some r) symbols results := by
  intro symbols
  induction symbols with
  | nil => intro _; exact ⟨[], rfl, List.Forall₂.nil⟩
  | cons s rest ih =>
    intro h
    obtain ⟨res, hres⟩ := worker_ne_none env index s (h s (List.mem_cons_self _ _))
    obtain ⟨results, hr, hall⟩ := ih (fun x hx => h x (List.mem_cons_of_mem _ hx))
    exact ⟨res :: results, by simp [runWorkers, hres, hr], List.Forall₂.cons hres hall⟩

theorem forall₂_worker_okRows {F X : Type} (env : Env F X) (index : XdxrIndex X)
    (symbols : List String) (results : List result)
    (h : List.Forall₂ (fun s r => worker env index s = some r) symbols results) :
    results.filterMap okRows
      = (symbols.filterMap (factorsOf env index)).map
          (fun fs => String.join (fs.map (formatRow env))) := by
  induction h with
  | nil => rfl
  | @cons s r ss rs hw _ ih =>
    have h1 := worker_okRows env index s r hw
    cases hf : factorsOf env index s with
    | none =>
      rw [hf] at h1
      simp only [Option.map_none'] at h1
      simp only [List.filterMap_cons, h1, hf, ih]
    | some fs =>
      rw [hf] at h1
      simp only [Option.map_some'] at h1
      simp only [List.filterMap_cons, h1, hf, ih, List.map_cons]

theorem forall₂_worker_mem {F X : Type} (env : Env F X) (index : XdxrIndex X)
    (symbols : List String) (results : List result)
    (h : List.Forall₂ (fun s r => worker env index s = some r) symbols results)
    (sym : String) (hsym : sym ∈ symbols) :
    ∃ r ∈ results, worker env index sym = some r := by
  induction h with
  | nil => simp at hsym
  | @cons s r ss rs hw _ ih =>
    rcases List.mem_cons.mp hsym with rfl | hmem
    · exact ⟨r, List.mem_cons_self _ _, hw⟩
    · obtain ⟨r1, hr1, hw1⟩ := ih hmem
      exact ⟨r1, List.mem_cons_of_mem _ hr1, hw1⟩

theorem written_append (a b : List Call) : written (a ++ b) = written a ++ written b := by
  induction a with
  | nil => rfl
  | cons c a ih => cases c <;> simp [written, ih]

theorem written_writer {F X : Type} (env : Env F X) :
    ∀ (rs : List result) (log : List Call),
      written (writer env rs log) = written log ++ rs.filterMap okRows := by
  intro rs
  induction rs with
  | nil => intro log; simp [writer]
  | cons r rs ih =>
    intro log
    unfold writer
    cases he : r.err with
    | some e =>
      simp only [ih, written_append, List.filterMap_cons, okRows, he]
      simp [written]
    | none =>
      simp only
      cases env.exec log (Call.writeString r.rows) with
      | some e =>
        simp only [ih, written_append, List.filterMap_cons, okRows, he]
        simp [written]
      | none =>
        simp only [ih, written_append, List.filterMap_cons, okRows, he]
        simp [written]

theorem writer_log {F X : Type} (env : Env F X) :
    ∀ (rs : List result) (log : List Call), ∃ ext, writer env rs log = log ++ ext := by
  intro rs
  induction rs with
  | nil => intro log; exact ⟨[], by simp [writer]⟩
  | cons r rs ih =>
    intro log
    unfold writer
    cases r.err with
    | some e =>
      obtain ⟨ext, h⟩ := ih (log ++ [Call.print ("错误：" ++ e ++ "\n")])
      exact ⟨Call.print ("错误：" ++ e ++ "\n") :: ext, by simp only [h]; simp⟩
    | none =>
      simp only
      cases env.exec log (Call.writeString r.rows) with
      | some e =>
        obtain ⟨ext, h⟩ := ih (log ++ [Call.writeString r.rows,
          Call.print ("写入 CSV 失败：" ++ e ++ "\n")])
        exact ⟨Call.writeString r.rows :: Call.print ("写入 CSV 失败：" ++ e ++ "\n") :: ext,
          by simp only [h]; simp⟩
      | none =>
        obtain ⟨ext, h⟩ := ih (log ++ [Call.writeString r.rows])
        exact ⟨Call.writeString r.rows :: ext, by simp only [h]; simp⟩

/-- The rows of every result without an error are handed to `WriteString` whole,
in one call. -/
theorem writer_writes {F X : Type} (env : Env F X) :
    ∀ (rs : List result) (log : List Call) (r : result), r ∈ rs → r.err = none →
      ∃ pre post, writer env rs log = pre ++ Call.writeString r.rows :: post := by
  intro rs
  induction rs with
  | nil => intro log r hr; simp at hr
  | cons r0 rs ih =>
    intro log r hr herr
    rcases List.mem_cons.mp hr with rfl | hmem
    · unfold writer
      rw [herr]
      simp only
      cases env.exec log (Call.writeString r.rows) with
      | some e =>
        obtain ⟨ext, h⟩ := writer_log env rs (log ++ [Call.writeString r.rows,
          Call.print ("写入 CSV 失败：" ++ e ++ "\n")])
        exact ⟨log, Call.print ("写入 CSV 失败：" ++ e ++ "\n") :: ext, by simp only [h]; simp⟩
      | none =>
        obtain ⟨ext, h⟩ := writer_log env rs (log ++ [Call.writeString r.rows])
        exact ⟨log, ext, by simp only [h]; simp⟩
    · unfold writer
      cases r0.err with
      | some e => exact ih _ r hmem herr
      | none =>
        simp only
        cases env.exec log (Call.writeString r0.rows) with
        | some e => exact ih _ r hmem herr
        | none => exact ih _ r hmem herr

/-- The run of `UpdateFactors` when the artifact is created, the index is built,
the symbols are listed and no goroutine panics. -/
theorem UpdateFactors_run {F X : Type} (env : Env F X) (cfg : Config)
    (sched : List result → List result) (log : List Call)
    (xdxrData : List (XdxrData X)) (symbols : List String)
    (hcreate : env.exec log (Call.osCreate (env.pathJoin [cfg.DataDir, "factors.csv"])) = none)
    (hxdxr : env.queryAllXdxr (log ++ [Call.osCreate (env.pathJoin [cfg.DataDir, "factors.csv"]),
      Call.print "📟 计算所有股票前收盘价\n"]) = .ok xdxrData)
    (hsyms : env.queryAllSymbols (log ++ [Call.osCreate (env.pathJoin [cfg.DataDir, "factors.csv"]),
      Call.print "📟 计算所有股票前收盘价\n"] ++ [Call.queryAllXdxr]) = .ok symbols)
    (hlen : ∀ s ∈ symbols, 2 ≤ (utf8 s).length ∨ ∃ e, env.queryStockData s = .error e) :
    ∃ results err tail,
      List.Forall₂ (fun s r => worker env (indexOf xdxrData) s = some r) symbols results
      ∧ UpdateFactors env cfg sched log
        = some (err, writer env (sched results)
            (log ++ [Call.osCreate (env.pathJoin [cfg.DataDir, "factors.csv"]),
              Call.print "📟 计算所有股票前收盘价\n"] ++ [Call.queryAllXdxr]
              ++ [Call.queryAllSymbols]) ++ tail)
      ∧ written tail = []
      ∧ (err = none ∨ ∃ e, err = some ("failed to import factor data: " ++ e)) := by
  obtain ⟨results, hrun, hall⟩ := runWorkers_eq_some env (indexOf xdxrData) symbols hlen
  unfold UpdateFactors buildXdxrIndex
  simp only [hcreate, hxdxr, hsyms, hrun]
  cases env.exec (writer env (sched results)
      (log ++ [Call.osCreate (env.pathJoin [cfg.DataDir, "factors.csv"]),
        Call.print "📟 计算所有股票前收盘价\n"] ++ [Call.queryAllXdxr]
        ++ [Call.queryAllSymbols]))
      (Call.importFactorCsv (env.pathJoin [cfg.DataDir, "factors.csv"])) with
  | some e => exact ⟨results, _, _, hall, rfl, rfl, Or.inr ⟨e, rfl⟩⟩
  | none => exact ⟨results, _, _, hall, rfl, rfl, Or.inl rfl⟩

/-! ## C8: the failure of one symbol and the other symbols -/

/-- The isolation of the failures of single symbols in a run without a panic:
let the artifact be created, the index built from the rows `xdxrData` and the
symbols listed, no goroutine ending in a panic (each symbol has its two prefix
bytes, or its price query fails), and let the channel deliver the results in any
order `sched`.  Whatever the price queries and the factor calculations
answer, `UpdateFactors` returns, with no error or with the error of the
final import only, and the texts it hands to `WriteString` are, in some order,
the blocks of lines of exactly the symbols whose query and calculation both
succeed, each block holding the lines of all the factors of its symbol. -/
theorem UpdateFactors_isolates_symbol_failures {F X : Type} (env : Env F X) (cfg : Config)
    (sched : List result → List result) (log : List Call)
    (xdxrData : List (XdxrData X)) (symbols : List String)
    (hsched : ∀ l, (sched l).Perm l)
    (hcreate : env.exec log (Call.osCreate (env.pathJoin [cfg.DataDir, "factors.csv"])) = none)
    (hxdxr : env.queryAllXdxr (log ++ [Call.osCreate (env.pathJoin [cfg.DataDir, "factors.csv"]),
      Call.print "📟 计算所有股票前收盘价\n"]) = .ok xdxrData)
    (hsyms : env.queryAllSymbols (log ++ [Call.osCreate (env.pathJoin [cfg.DataDir, "factors.csv"]),
      Call.print "📟 计算所有股票前收盘价\n"] ++ [Call.queryAllXdxr]) = .ok symbols)
    (hlen : ∀ s ∈ symbols, 2 ≤ (utf8 s).length ∨ ∃ e, env.queryStockData s = .error e) :
    ∃ err log1 blocks, UpdateFactors env cfg sched log = some (err, log1)
      ∧ (err = none ∨ ∃ e, err = some ("failed to import factor data: " ++ e))
      ∧ written log1 = written log ++ blocks
      ∧ blocks.Perm ((symbols.filterMap (factorsOf env (indexOf xdxrData))).map
          (fun fs => String.join (fs.map (formatRow env)))) := by
  obtain ⟨results, err, tail, hall, hrun, htail, herr⟩ :=
    UpdateFactors_run env cfg sched log xdxrData symbols hcreate hxdxr hsyms hlen
  refine ⟨err, _, (sched results).filterMap okRows, hrun, herr, ?_, ?_⟩
  · rw [written_append, written_writer, htail]
    simp [written_append, written]
  · rw [← forall₂_worker_okRows env (indexOf xdxrData) symbols results hall]
    exact (hsched results).filterMap okRows

theorem UpdateFactors_isolates_symbol_failures_witness :
    ∃ err log1 blocks, UpdateFactors demoFactorEnv demoCfg List.reverse [] = some (err, log1)
      ∧ (err = none ∨ ∃ e, err = some ("failed to import factor data: " ++ e))
      ∧ written log1 = written [] ++ blocks
      ∧ blocks.Perm ((["sh600000", "sz000001", "sh600001"].filterMap
          (factorsOf demoFactorEnv (indexOf [⟨"600000", ()⟩]))).map
          (fun fs => String.join (fs.map (formatRow demoFactorEnv)))) :=
  UpdateFactors_isolates_symbol_failures demoFactorEnv demoCfg List.reverse []
    [⟨"600000", ()⟩] ["sh600000", "sz000001", "sh600001"] (fun l => List.reverse_perm l)
    rfl rfl rfl
    (by
      intro s hs
      simp only [List.mem_cons, List.mem_singleton, List.not_mem_nil, or_false] at hs
      rcases hs with rfl | rfl | rfl
      · exact Or.inl (by decide)
      · exact Or.inl (by decide)
      · exact Or.inl (by decide))

/-- C8, the code at the failing input: the store lists the symbols `sh600000` and
`a`, and the price query and the factor calculation succeed for both.  The
goroutine of `a` panics in `getXdxrByCode` (see C7), which ends the process:
`UpdateFactors` does not return and the import of the artifact never happens,
although no symbol has failed.  The goroutine of `sh600000` alone succeeds. -/
theorem UpdateFactors_panics_on_short_symbol :
    UpdateFactors demoShortSymbolEnv demoCfg id [] = none
      ∧ worker demoShortSymbolEnv (indexOf [⟨"600000", ()⟩]) "sh600000"
          = some ⟨"sh600000,0001-01-02,1.0000,1.0000,1.0000,1.0000\n", none⟩
      ∧ worker demoShortSymbolEnv (indexOf [⟨"600000", ()⟩]) "a" = none := by
  decide

/-! ## C9: the lines of a symbol -/

/-- C9: under the conditions of C8, let the price query of a listed symbol `sym`
return `stockData` and the calculator return `factors` for it.  Then the block
of `sym` is handed to `WriteString` whole, in one call, so its lines are
contiguous wherever the block lands; the block is the concatenation of one line
per factor, in the order of the factors, line `i` being the line of factor `i`
and starting with its symbol and its date.  When the calculator returns one
factor per price point with the dates of the price points in order, there are
as many lines as price points and line `i` carries the date of price point `i`. -/
theorem UpdateFactors_rows_follow_factors {F X : Type} (env : Env F X) (cfg : Config)
    (sched : List result → List result) (log : List Call)
    (xdxrData : List (XdxrData X)) (symbols : List String)
    (hsched : ∀ l, (sched l).Perm l)
    (hcreate : env.exec log (Call.osCreate (env.pathJoin [cfg.DataDir, "factors.csv"])) = none)
    (hxdxr : env.queryAllXdxr (log ++ [Call.osCreate (env.pathJoin [cfg.DataDir, "factors.csv"]),
      Call.print "📟 计算所有股票前收盘价\n"]) = .ok xdxrData)
    (hsyms : env.queryAllSymbols (log ++ [Call.osCreate (env.pathJoin [cfg.DataDir, "factors.csv"]),
      Call.print "📟 计算所有股票前收盘价\n"] ++ [Call.queryAllXdxr]) = .ok symbols)
    (hlen : ∀ s ∈ symbols, 2 ≤ (utf8 s).length ∨ ∃ e, env.queryStockData s = .error e)
    (sym : String) (hsym : sym ∈ symbols)
    (stockData : List (StockData F)) (factors : List (Factor F))
    (hquery : env.queryStockData sym = .ok stockData)
    (hcalc : env.calculateFqFactor stockData ((getXdxrByCode (indexOf xdxrData) sym).getD [])
      = .ok factors) :
    (∃ err pre post, UpdateFactors env cfg sched log
        = some (err, pre ++ Call.writeString (String.join (factors.map (formatRow env))) :: post))
      ∧ (factors.map (formatRow env)).length = factors.length
      ∧ (∀ (i : Nat) (f : Factor F), factors[i]? = some f →
          (factors.map (formatRow env))[i]?
            = some (f.Symbol ++ "," ++ env.formatDate "2006-01-02" f.Date ++ ","
                ++ env.formatFloat4 f.Close ++ "," ++ env.formatFloat4 f.PreClose ++ ","
                ++ env.formatFloat4 f.QfqFactor ++ "," ++ env.formatFloat4 f.HfqFactor ++ "\n"))
      ∧ (factors.map (fun f => f.Date) = stockData.map (fun pt => pt.Date) →
          (factors.map (formatRow env)).length = stockData.length
          ∧ ∀ (i : Nat) (pt : StockData F), stockData[i]? = some pt →
              ∃ f, factors[i]? = some f ∧ f.Date = pt.Date
                ∧ (factors.map (formatRow env))[i]? = some (formatRow env f)) := by
  refine ⟨?_, List.length_map _ _, ?_, ?_⟩
  · obtain ⟨results, err, tail, hall, hrun, _, _⟩ :=
      UpdateFactors_run env cfg sched log xdxrData symbols hcreate hxdxr hsyms hlen
    -- the result of the goroutine of `sym`
    obtain ⟨r, hr, hw⟩ := forall₂_worker_mem env (indexOf xdxrData) symbols results hall sym hsym
    have hok := worker_okRows env (indexOf xdxrData) sym r hw
    have hf : factorsOf env (indexOf xdxrData) sym = some factors := by
      unfold factorsOf
      rw [hquery]
      simp only [hcalc]
    rw [hf] at hok
    simp only [Option.map_some'] at hok
    have herr : r.err = none ∧ r.rows = String.join (factors.map (formatRow env)) := by
      unfold okRows at hok
      cases he : r.err with
      | none => rw [he] at hok; simp only [Option.some.injEq] at hok; exact ⟨rfl, hok⟩
      | some e => rw [he] at hok; simp at hok
    obtain ⟨pre, post, hwr⟩ := writer_writes env (sched results)
      (log ++ [Call.osCreate (env.pathJoin [cfg.DataDir, "factors.csv"]),
        Call.print "📟 计算所有股票前收盘价\n"] ++ [Call.queryAllXdxr] ++ [Call.queryAllSymbols])
      r ((hsched results).symm.subset hr) herr.1
    refine ⟨err, pre, post ++ tail, ?_⟩
    rw [hrun, hwr, herr.2]
    simp
  · intro i f hf
    rw [List.getElem?_map, hf]
    rfl
  · intro hdates
    have hlen2 : factors.length = stockData.length := by
      have := congrArg List.length hdates
      simpa using this
    refine ⟨by rw [List.length_map, hlen2], ?_⟩
    intro i pt hpt
    have hi : i < stockData.length := by
      rcases Nat.lt_or_ge i stockData.length with h | h
      · exact h
      · rw [List.getElem?_eq_none h] at hpt; simp at hpt
    have hi2 : i < factors.length := by omega
    refine ⟨factors[i], List.getElem?_eq_getElem hi2, ?_, ?_⟩
    · have h1 : (factors.map (fun f => f.Date))[i]? = (stockData.map (fun pt => pt.Date))[i]? := by
        rw [hdates]
      rw [List.getElem?_map, List.getElem?_map, hpt, List.getElem?_eq_getElem hi2] at h1
      simpa using h1
    · rw [List.getElem?_map, List.getElem?_eq_getElem hi2]
      rfl

theorem UpdateFactors_rows_follow_factors_witness :
    (∃ err pre post, UpdateFactors demoFactorEnv demoCfg List.reverse []
        = some (err, pre ++ Call.writeString (String.join
            ([(⟨"sh600000", 1 * day, 10, 10, 1, 1⟩ : Factor Int),
              ⟨"sh600000", 2 * day, 10, 10, 1, 1⟩].map (formatRow demoFactorEnv))) :: post))
      ∧ ([(⟨"sh600000", 1 * day, 10, 10, 1, 1⟩ : Factor Int),
          ⟨"sh600000", 2 * day, 10, 10, 1, 1⟩].map (formatRow demoFactorEnv)).length
        = [demoPrice (1 * day), demoPrice (2 * day)].length :=
  have h := UpdateFactors_rows_follow_factors demoFactorEnv demoCfg List.reverse []
    [⟨"600000", ()⟩] ["sh600000", "sz000001", "sh600001"] (fun l => List.reverse_perm l)
    rfl rfl rfl
    (by
      intro s hs
      simp only [List.mem_cons, List.mem_singleton, List.not_mem_nil, or_false] at hs
      rcases hs with rfl | rfl | rfl
      · exact Or.inl (by decide)
      · exact Or.inl (by decide)
      · exact Or.inl (by decide))
    "sh600000" (by decide)
    [demoPrice (1 * day), demoPrice (2 * day)]
    [⟨"sh600000", 1 * day, 10, 10, 1, 1⟩, ⟨"sh600000", 2 * day, 10, 10, 1, 1⟩] rfl rfl
  ⟨h.1, (h.2.2.2 rfl).1⟩

/-! ## Facts about the calls of `prepareTdxData` -/

theorem acqExt_refl (log : List Call) : AcqExt log log := ⟨[], by simp, rfl⟩

theorem acqExt_append (log cs : List Call) (h : cs.all Call.isAcquisition = true) :
    AcqExt log (log ++ cs) := ⟨cs, rfl, h⟩

theorem acqExt_trans {a b c : List Call} (h1 : AcqExt a b) (h2 : AcqExt b c) : AcqExt a c := by
  obtain ⟨e1, rfl, he1⟩ := h1
  obtain ⟨e2, rfl, he2⟩ := h2
  exact ⟨e1 ++ e2, by simp, by rw [List.all_append, he1, he2]; rfl⟩

theorem acqExt_step (log cs l : List Call) (h : cs.all Call.isAcquisition = true)
    (h2 : AcqExt (log ++ cs) l) : AcqExt log l :=
  acqExt_trans (acqExt_append log cs h) h2

theorem downloadLoop_calls {F X : Type} (env : Env F X) (p : KindParams) :
    ∀ (ds v : List Int) (log : List Call), AcqExt log (downloadLoop env p ds v log).2 := by
  intro ds
  induction ds with
  | nil => intro v log; exact acqExt_refl log
  | cons d ds ih =>
    intro v log
    simp only [downloadLoop]
    split_ifs
    · split
      · refine acqExt_step _ _ _ ?_ (acqExt_step _ _ _ ?_ (acqExt_step _ _ _ ?_ (ih _ _))) <;> rfl
      · refine acqExt_step _ _ _ ?_ (acqExt_step _ _ _ ?_ (acqExt_step _ _ _ ?_ (ih _ _))) <;> rfl
    · refine acqExt_step _ _ _ ?_ (acqExt_step _ _ _ ?_ (ih _ _)) <;> rfl
    · split
      · refine acqExt_append _ _ ?_
        rfl
      · refine acqExt_step _ _ _ ?_ (ih _ _)
        rfl

theorem transcode_calls {F X : Type} (env : Env F X) (cfg : Config) (dataType : String)
    (v : List Int) (log : List Call) : AcqExt log (transcode env cfg dataType v log).2 := by
  unfold transcode
  cases v.getLast? with
  | none => exact acqExt_refl log
  | some endDate =>
    dsimp only
    split_ifs
    · cases env.exec log (Call.datatoolCreate cfg.DataDir "day" endDate) <;>
        (refine acqExt_append _ _ ?_; rfl)
    · cases env.exec (log ++ [Call.print "🐢 开始转档分笔数据\n"])
        (Call.datatoolCreate cfg.DataDir "tick" endDate) with
      | some e => refine acqExt_step _ _ _ ?_ (acqExt_append _ _ ?_) <;> rfl
      | none =>
        dsimp only
        cases env.exec (log ++ [Call.print "🐢 开始转档分笔数据\n"] ++
          [Call.datatoolCreate cfg.DataDir "tick" endDate, Call.print "🐢 开始转换分钟数据\n"])
          (Call.datatoolCreate cfg.DataDir "min" endDate) <;>
          (refine acqExt_step _ _ _ ?_ (acqExt_step _ _ _ ?_ (acqExt_append _ _ ?_)) <;> rfl)
    · exact acqExt_refl log

/-- Whatever it returns, `prepareTdxData` only adds acquisition calls to the log. -/
theorem prepareTdxData_calls {F X : Type} (env : Env F X) (cfg : Config) (latestDate : Int)
    (dataType : String) (log : List Call) :
    AcqExt log (prepareTdxData env cfg latestDate dataType log).2 := by
  unfold prepareTdxData prepareTdxDataFrom
  split_ifs
  · exact acqExt_refl log
  · cases kindParams env cfg dataType with
    | none => exact acqExt_refl log
    | some p =>
      dsimp only
      cases env.exec log (Call.mkdirAll p.targetPath) with
      | some e => refine acqExt_append _ _ ?_; rfl
      | none =>
        dsimp only
        have h1 := downloadLoop_calls env p (candidateDates cfg.Today latestDate) []
          (log ++ [Call.mkdirAll p.targetPath, Call.print ("🐢 开始下载" ++ p.dataTypeCN ++ "数据\n")])
        revert h1
        cases downloadLoop env p (candidateDates cfg.Today latestDate) []
          (log ++ [Call.mkdirAll p.targetPath,
            Call.print ("🐢 开始下载" ++ p.dataTypeCN ++ "数据\n")]) with
        | mk o l2 =>
          intro h1
          cases o with
          | none =>
            refine acqExt_step _ _ _ ?_ h1
            rfl
          | some v =>
            refine acqExt_step _ _ _ ?_ (acqExt_trans h1 (transcode_calls env cfg dataType v l2))
            rfl

/-! ## C10: a decode fault in one kind -/

theorem Cron_of_daily_error {F X : Type} (env : Env F X) (cfg : Config)
    (sched : List result → List result) (dbPath minline : String) (log : List Call)
    (latest : Int) (e : String) (l : List Call)
    (hdb : dbPath ≠ "") (hconn : env.exec log (Call.connect dbPath) = none)
    (hlatest : env.getStockTableLatestDate (log ++ [Call.connect dbPath]) = .ok latest)
    (hdaily : UpdateStocksDaily env cfg latest (cronStartLog env dbPath latest log) = (some e, l)) :
    Cron env cfg sched dbPath minline log
      = some (some ("failed to update daily stock data: " ++ e), l ++ [Call.dbClose]) := by
  unfold cronStartLog at hdaily
  unfold Cron step
  rw [if_neg hdb]
  simp only [hconn, hlatest, hdaily]

theorem Cron_of_minline_error {F X : Type} (env : Env F X) (cfg : Config)
    (sched : List result → List result) (dbPath minline : String) (log : List Call)
    (latest : Int) (e : String) (l3 l4 : List Call)
    (hdb : dbPath ≠ "") (hconn : env.exec log (Call.connect dbPath) = none)
    (hlatest : env.getStockTableLatestDate (log ++ [Call.connect dbPath]) = .ok latest)
    (hdaily : UpdateStocksDaily env cfg latest (cronStartLog env dbPath latest log) = (none, l3))
    (hmin : UpdateStocksMinLine env cfg latest minline l3 = (some e, l4)) :
    Cron env cfg sched dbPath minline log
      = some (some ("failed to update minute-line stock data: " ++ e), l4 ++ [Call.dbClose]) := by
  unfold cronStartLog at hdaily
  unfold Cron step
  rw [if_neg hdb]
  simp only [hconn, hlatest, hdaily, hmin]

/-- `UpdateStocksDaily` returns the error of `prepareTdxData` without another call. -/
theorem UpdateStocksDaily_of_prepare_error {F X : Type} (env : Env F X) (cfg : Config)
    (latest : Int) (log : List Call) (v : List Int) (e : String) (l : List Call)
    (h : prepareTdxData env cfg latest "day" log = ((v, some e), l)) :
    UpdateStocksDaily env cfg latest log = (some ("failed to prepare tdx data: " ++ e), l) := by
  unfold UpdateStocksDaily
  rw [h]

/-- `UpdateStocksDaily` returns the error of the decoder `ConvertFiles2Csv`
without calling `ImportStockCsv`. -/
theorem UpdateStocksDaily_of_convert_error {F X : Type} (env : Env F X) (cfg : Config)
    (latest : Int) (log : List Call) (v : List Int) (e : String) (l : List Call)
    (h : prepareTdxData env cfg latest "day" log = ((v, none), l)) (hv : 0 < v.length)
    (hconv : env.exec (l ++ [Call.print "🐢 开始转换日线数据\n"])
      (Call.convertFiles2Csv cfg.VipdocDir cfg.ValidPrefixes cfg.StockCSV ".day") = some e) :
    UpdateStocksDaily env cfg latest log
      = (some ("failed to convert day files to CSV: " ++ e),
          l ++ [Call.print "🐢 开始转换日线数据\n"]
            ++ [Call.convertFiles2Csv cfg.VipdocDir cfg.ValidPrefixes cfg.StockCSV ".day"]) := by
  unfold UpdateStocksDaily step
  rw [h]
  simp only [gt_iff_lt, hv, if_true, hconv]

theorem demo_candidateDates_last : candidateDates demoCfg.Today (2 * day) = [3 * day] := by
  simp [candidateDates, datesLoop, demoCfg, day, Hour]

theorem demo_daily_tool_failure :
    UpdateStocksDaily demoToolFails demoCfg (2 * day)
        (cronStartLog demoToolFails "/data/tdx.db" (2 * day) [])
      = (some "failed to prepare tdx data: failed to run DatatoolDayCreate: exit status 1",
          [Call.connect "/data/tdx.db", Call.getStockTableLatestDate,
            Call.print "📅 日线数据的最新日期为 0001-01-03\n",
            Call.mkdirAll "/data/vipdoc/refmhq", Call.print "🐢 开始下载日线数据\n",
            Call.downloadFile "https://www.tdx.com.cn/products/data/data/g4day/00010104.zip"
              "/data/vipdoc/refmhq/00010104day.zip",
            Call.print "✅ 已下载 00010104 的数据\n",
            Call.unzipFile "/data/vipdoc/refmhq/00010104day.zip" "/data/vipdoc/refmhq",
            Call.datatoolCreate "/data" "day" (3 * day)]) := by
  unfold UpdateStocksDaily prepareTdxData
  rw [demo_candidateDates_last]
  decide

/-- C10 fails: the store's latest daily date is 0001-01-03, today is 0001-01-04,
the minute lines `1,5` are asked for, and the vendor tool fails for the daily
kind.  `Cron` returns the error of the daily kind, and after the failed tool
call it only closes the database: the minute lines and the corporate actions
are not run. -/
theorem Cron_daily_tool_failure_ends_cycle :
    Cron demoToolFails demoCfg id "/data/tdx.db" "1,5" []
      = some (some ("failed to update daily stock data: failed to prepare tdx data: "
            ++ "failed to run DatatoolDayCreate: exit status 1"),
          [Call.connect "/data/tdx.db", Call.getStockTableLatestDate,
            Call.print "📅 日线数据的最新日期为 0001-01-03\n",
            Call.mkdirAll "/data/vipdoc/refmhq", Call.print "🐢 开始下载日线数据\n",
            Call.downloadFile "https://www.tdx.com.cn/products/data/data/g4day/00010104.zip"
              "/data/vipdoc/refmhq/00010104day.zip",
            Call.print "✅ 已下载 00010104 的数据\n",
            Call.unzipFile "/data/vipdoc/refmhq/00010104day.zip" "/data/vipdoc/refmhq",
            Call.datatoolCreate "/data" "day" (3 * day), Call.dbClose]) := by
  rw [Cron_of_daily_error demoToolFails demoCfg id "/data/tdx.db" "1,5" [] (2 * day) _ _
    (by decide) rfl rfl demo_daily_tool_failure]
  decide

/-- The daily kind in detail: let `Cron` have connected and read the latest date.
(1) When `prepareTdxData` fails for the daily kind (the vendor tool, or the
directory creation), `Cron` returns that error, and its log is the log of
`prepareTdxData` followed by `db.Close()` alone;
(2) when the decoder `ConvertFiles2Csv` fails for the daily kind, `Cron` returns
that error, and after the decoder call it only closes the database.
In both cases the calls of the cycle after the start are acquisition calls, the
decoder call and `db.Close()`: the daily import is not performed and no later
kind is run.
(3) When `UpdateStocksMinLine` returns an error, `Cron` returns it and only
closes the database after it: the corporate actions are not run. -/
theorem Cron_stops_at_decode_fault {F X : Type} (env : Env F X) (cfg : Config)
    (sched : List result → List result) (dbPath minline : String) (log : List Call)
    (latest : Int)
    (hdb : dbPath ≠ "") (hconn : env.exec log (Call.connect dbPath) = none)
    (hlatest : env.getStockTableLatestDate (log ++ [Call.connect dbPath]) = .ok latest) :
    (∀ (v : List Int) (e : String) (l : List Call),
        prepareTdxData env cfg latest "day" (cronStartLog env dbPath latest log) = ((v, some e), l) →
        Cron env cfg sched dbPath minline log
            = some (some ("failed to update daily stock data: "
                ++ ("failed to prepare tdx data: " ++ e)), l ++ [Call.dbClose])
          ∧ AcqExt (cronStartLog env dbPath latest log) l)
      ∧ (∀ (v : List Int) (e : String) (l : List Call),
        prepareTdxData env cfg latest "day" (cronStartLog env dbPath latest log) = ((v, none), l) →
        0 < v.length →
        env.exec (l ++ [Call.print "🐢 开始转换日线数据\n"])
          (Call.convertFiles2Csv cfg.VipdocDir cfg.ValidPrefixes cfg.StockCSV ".day") = some e →
        Cron env cfg sched dbPath minline log
            = some (some ("failed to update daily stock data: "
                ++ ("failed to convert day files to CSV: " ++ e)),
              l ++ [Call.print "🐢 开始转换日线数据\n"]
                ++ [Call.convertFiles2Csv cfg.VipdocDir cfg.ValidPrefixes cfg.StockCSV ".day"]
                ++ [Call.dbClose])
          ∧ AcqExt (cronStartLog env dbPath latest log) l)
      ∧ (∀ (e : String) (l3 l4 : List Call),
        UpdateStocksDaily env cfg latest (cronStartLog env dbPath latest log) = (none, l3) →
        UpdateStocksMinLine env cfg latest minline l3 = (some e, l4) →
        Cron env cfg sched dbPath minline log
          = some (some ("failed to update minute-line stock data: " ++ e), l4 ++ [Call.dbClose])) := by
  refine ⟨?_, ?_, ?_⟩
  · intro v e l h
    refine ⟨Cron_of_daily_error env cfg sched dbPath minline log latest _ l hdb hconn hlatest
      (UpdateStocksDaily_of_prepare_error env cfg latest _ v e l h), ?_⟩
    have := prepareTdxData_calls env cfg latest "day" (cronStartLog env dbPath latest log)
    rw [h] at this
    exact this
  · intro v e l h hv hconv
    refine ⟨Cron_of_daily_error env cfg sched dbPath minline log latest _ _ hdb hconn hlatest
      (UpdateStocksDaily_of_convert_error env cfg latest _ v e l h hv hconv), ?_⟩
    have := prepareTdxData_calls env cfg latest "day" (cronStartLog env dbPath latest log)
    rw [h] at this
    exact this
  · intro e l3 l4 hdaily hmin
    exact Cron_of_minline_error env cfg sched dbPath minline log latest e l3 l4 hdb hconn hlatest
      hdaily hmin

theorem Cron_stops_at_decode_fault_witness :
    Cron demoToolFails demoCfg id "/data/tdx.db" "1,5" []
        = some (some ("failed to update daily stock data: "
            ++ ("failed to prepare tdx data: " ++ "failed to run DatatoolDayCreate: exit status 1")),
          (prepareTdxData demoToolFails demoCfg (2 * day) "day"
            (cronStartLog demoToolFails "/data/tdx.db" (2 * day) [])).2 ++ [Call.dbClose])
      ∧ AcqExt (cronStartLog demoToolFails "/data/tdx.db" (2 * day) [])
          (prepareTdxData demoToolFails demoCfg (2 * day) "day"
            (cronStartLog demoToolFails "/data/tdx.db" (2 * day) [])).2 :=
  (Cron_stops_at_decode_fault demoToolFails demoCfg id "/data/tdx.db" "1,5" [] (2 * day)
    (by decide) rfl rfl).1 [] "failed to run DatatoolDayCreate: exit status 1" _
    (by unfold prepareTdxData; rw [demo_candidateDates_last]; rfl)

/-! ## Facts about a run of the download loop without an early return -/

theorem downloadFile_mem_roundCalls {F X : Type} (env : Env F X) (p : KindParams) (d : Int)
    (o : Outcome) : Call.downloadFile (dlUrl env p d) (dlPath env p d) ∈ roundCalls env p d o := by
  unfold roundCalls
  split_ifs
  · cases o.unzipErr <;> simp
  · simp
  · simp

/-- When the collaborators answer by the given outcomes and no download answers
an error together with a status other than 200 and 404, the loop visits every
date: it ends with the resolved dates appended, in order, to the valid dates,
and with the calls of all rounds appended to the log. -/
theorem downloadLoop_of_answers {F X : Type} (env : Env F X) (p : KindParams) :
    ∀ (rounds : List (Int × Outcome)) (v : List Int) (log : List Call),
      Answers env p rounds log →
      (∀ r ∈ rounds, r.2.status = 200 ∨ r.2.status = 404 ∨ r.2.err = none) →
      downloadLoop env p (rounds.map Prod.fst) v log
        = (some (v ++ (rounds.filter (fun r => r.2.resolved)).map Prod.fst),
            log ++ rounds.flatMap (fun r => roundCalls env p r.1 r.2)) := by
  intro rounds
  induction rounds with
  | nil => intro v log _ _; simp [downloadLoop]
  | cons r rounds ih =>
    obtain ⟨d, o⟩ := r
    intro v log hans hok
    obtain ⟨hdl, hunzip, hrest⟩ := hans
    have hok1 : ∀ r ∈ rounds, r.2.status = 200 ∨ r.2.status = 404 ∨ r.2.err = none :=
      fun r hr => hok r (List.mem_cons_of_mem _ hr)
    have hd : o.status = 200 ∨ o.status = 404 ∨ o.err = none := hok (d, o) (List.mem_cons_self _ _)
    unfold dlUrl dlPath at hdl
    simp only [List.map_cons, downloadLoop, hdl, List.flatMap_cons, List.filter_cons]
    by_cases h200 : o.status = 200
    · have hu := hunzip h200
      unfold dlUrl dlPath msgDownloaded at hu
      simp only [h200, if_true, hu]
      cases hue : o.unzipErr with
      | some e =>
        have hr := ih v _ (by simpa [roundCalls, h200, hue] using hrest) hok1
        simp only [roundCalls, h200, hue, if_true] at hr ⊢
        simp only [Outcome.resolved, h200, hue, decide_True, Option.isNone_some, Bool.and_false,
          Bool.false_eq_true, if_false]
        simp only [dlUrl, dlPath, msgDownloaded, msgUnzipFailed] at hr ⊢
        simpa [List.append_assoc] using hr
      | none =>
        have hr := ih (v ++ [d]) _ (by simpa [roundCalls, h200, hue] using hrest) hok1
        simp only [roundCalls, h200, hue, if_true] at hr ⊢
        simp only [Outcome.resolved, h200, hue, decide_True, Option.isNone_none, Bool.and_true,
          if_true, List.map_cons]
        simp only [dlUrl, dlPath, msgDownloaded] at hr ⊢
        simpa [List.append_assoc] using hr
    · have hres : o.resolved = false := by simp [Outcome.resolved, h200]
      by_cases h404 : o.status = 404
      · have hr := ih v _ (by simpa [roundCalls, h200, h404] using hrest) hok1
        simp only [roundCalls, h200, h404, if_true, if_false] at hr ⊢
        simp only [hres, Bool.false_eq_true, if_false]
        simp only [dlUrl, dlPath, msg404] at hr ⊢
        simpa [List.append_assoc] using hr
      · have herr : o.err = none := by
          rcases hd with h | h | h
          · exact absurd h h200
          · exact absurd h h404
          · exact h
        have hr := ih v _ (by simpa [roundCalls, h200, h404] using hrest) hok1
        simp only [roundCalls, h200, h404, if_false] at hr ⊢
        simp only [hres, herr, Bool.false_eq_true, if_false]
        simp only [dlUrl, dlPath] at hr ⊢
        simpa [List.append_assoc] using hr

/-- When the vendor tool succeeds, the last part of `prepareTdxData` returns the
valid dates and a nil error. -/
theorem transcode_of_tool_ok {F X : Type} (env : Env F X) (cfg : Config) (dataType : String)
    (v : List Int) (log : List Call)
    (htool : ∀ l dir kind t, env.exec l (Call.datatoolCreate dir kind t) = none) :
    (transcode env cfg dataType v log).1 = (v, none) := by
  unfold transcode
  cases v.getLast? with
  | none => rfl
  | some endDate =>
    dsimp only
    split_ifs
    · simp only [htool]
    · simp only [htool]
    · rfl

/-- The run of `prepareTdxData` over candidate dates that are all visited. -/
theorem prepareTdxDataFrom_of_answers {F X : Type} (env : Env F X) (cfg : Config)
    (dataType : String) (p : KindParams) (rounds : List (Int × Outcome)) (log : List Call)
    (hp : kindParams env cfg dataType = some p)
    (hmk : env.exec log (Call.mkdirAll p.targetPath) = none)
    (hans : Answers env p rounds (log ++ [Call.mkdirAll p.targetPath, Call.print (msgStart p)]))
    (hok : ∀ r ∈ rounds, r.2.status = 200 ∨ r.2.status = 404 ∨ r.2.err = none)
    (hne : rounds ≠ []) :
    prepareTdxDataFrom env cfg (rounds.map Prod.fst) dataType log
      = transcode env cfg dataType ((rounds.filter (fun r => r.2.resolved)).map Prod.fst)
          (log ++ [Call.mkdirAll p.targetPath, Call.print (msgStart p)]
            ++ rounds.flatMap (fun r => roundCalls env p r.1 r.2)) := by
  have hrun := downloadLoop_of_answers env p rounds [] _ hans hok
  unfold msgStart at hrun ⊢
  unfold prepareTdxDataFrom
  have hlen : ¬ (rounds.map Prod.fst).length = 0 := by
    cases rounds with
    | nil => exact absurd rfl hne
    | cons r rs => simp
  rw [if_neg hlen]
  simp only [hp, hmk, hrun, List.nil_append]

/-! ## C11: the dates that `prepareTdxData` returns -/

/-- C11: let the data kind be `day` or `tic`, the directory creation and the
vendor tool succeed, the download and the extraction answer the rounds of the
candidate dates by the given outcomes, and no download answer an error together
with a status other than 200 and 404.  Then `prepareTdxData` returns a nil
error and exactly the dates whose download answered 200 and whose extraction
succeeded, in the order of the candidates; every candidate date is downloaded,
so no round stops the loop; a date listed once that answered 200 with a failed
extraction, or another status, is not returned.  For the candidate dates that
`prepareTdxData` builds itself the returned dates are strictly ascending. -/
theorem prepareTdxData_returns_resolved_dates {F X : Type} (env : Env F X) (cfg : Config)
    (dataType : String) (p : KindParams) (rounds : List (Int × Outcome)) (log : List Call)
    (hp : kindParams env cfg dataType = some p)
    (hmk : env.exec log (Call.mkdirAll p.targetPath) = none)
    (htool : ∀ l dir kind t, env.exec l (Call.datatoolCreate dir kind t) = none)
    (hans : Answers env p rounds (log ++ [Call.mkdirAll p.targetPath, Call.print (msgStart p)]))
    (hok : ∀ r ∈ rounds, r.2.status = 200 ∨ r.2.status = 404 ∨ r.2.err = none) :
    (prepareTdxDataFrom env cfg (rounds.map Prod.fst) dataType log).1
        = ((rounds.filter (fun r => r.2.resolved)).map Prod.fst, none)
      ∧ ((rounds.filter (fun r => r.2.resolved)).map Prod.fst).Sublist (rounds.map Prod.fst)
      ∧ (∀ r ∈ rounds, Call.downloadFile (dlUrl env p r.1) (dlPath env p r.1)
          ∈ (prepareTdxDataFrom env cfg (rounds.map Prod.fst) dataType log).2)
      ∧ ((rounds.map Prod.fst).Nodup → ∀ r ∈ rounds, r.2.resolved = false →
          r.1 ∉ (prepareTdxDataFrom env cfg (rounds.map Prod.fst) dataType log).1.1)
      ∧ (∀ latestDate, rounds.map Prod.fst = candidateDates cfg.Today latestDate →
          (prepareTdxData env cfg latestDate dataType log).1
              = ((rounds.filter (fun r => r.2.resolved)).map Prod.fst, none)
            ∧ ((rounds.filter (fun r => r.2.resolved)).map Prod.fst).Pairwise (· < ·)) := by
  have hsub : ((rounds.filter (fun r => r.2.resolved)).map Prod.fst).Sublist
      (rounds.map Prod.fst) := (List.filter_sublist rounds).map Prod.fst
  have hres : (prepareTdxDataFrom env cfg (rounds.map Prod.fst) dataType log).1
      = ((rounds.filter (fun r => r.2.resolved)).map Prod.fst, none) := by
    by_cases hne : rounds = []
    · subst hne
      simp [prepareTdxDataFrom]
    · rw [prepareTdxDataFrom_of_answers env cfg dataType p rounds log hp hmk hans hok hne]
      exact transcode_of_tool_ok env cfg dataType _ _ htool
  refine ⟨hres, hsub, ?_, ?_, ?_⟩
  · intro r hr
    have hne : rounds ≠ [] := List.ne_nil_of_mem hr
    rw [prepareTdxDataFrom_of_answers env cfg dataType p rounds log hp hmk hans hok hne]
    apply (transcode_log env cfg dataType _ _).subset
    apply List.mem_append_right
    rw [List.mem_flatMap]
    exact ⟨r, hr, downloadFile_mem_roundCalls env p r.1 r.2⟩
  · intro hnd r hr hnot hmem
    rw [hres] at hmem
    obtain ⟨r1, hr1, hfst⟩ := List.mem_map.mp hmem
    obtain ⟨hr1mem, hr1res⟩ := List.mem_filter.mp hr1
    have : r1 = r := List.inj_on_of_nodup_map hnd hr1mem hr hfst
    rw [this, hnot] at hr1res
    exact absurd hr1res (by decide)
  · intro latestDate hdates
    constructor
    · unfold prepareTdxData
      rw [← hdates]
      exact hres
    · have := candidateDates_pairwise cfg.Today latestDate
      rw [← hdates] at this
      exact this.sublist hsub

theorem prepareTdxData_returns_resolved_dates_witness :
    (prepareTdxData demoMixedEnv demoCfg 0 "day" []).1 = ([3 * day], none)
      ∧ Call.downloadFile (dlUrl demoMixedEnv demoDay (2 * day))
          (dlPath demoMixedEnv demoDay (2 * day))
        ∈ (prepareTdxDataFrom demoMixedEnv demoCfg (demoMixedRounds.map Prod.fst) "day" []).2 :=
  have h := prepareTdxData_returns_resolved_dates demoMixedEnv demoCfg "day" demoDay
    demoMixedRounds [] rfl rfl (fun _ _ _ _ => rfl)
    ⟨rfl, fun _ => rfl, rfl, fun h => absurd h (by decide), rfl, fun _ => rfl, trivial⟩
    (by decide)
  ⟨(h.2.2.2.2 0 demo_candidateDates.symm).1, h.2.2.1 (2 * day, ⟨500, none, none⟩) (by decide)⟩

/-! ## Facts about `fmt.Sprintf` -/

theorem sprintfAux_literal (rest : List Char) (args : List String) :
    ∀ pre : List Char, '%' ∉ pre →
      sprintfAux (pre ++ rest) args = (sprintfAux rest args).map (fun t => pre ++ t) := by
  intro pre
  induction pre with
  | nil => intro _; simp
  | cons c pre ih =>
    intro h
    have hc : c ≠ '%' := fun hc => h (by simp [hc])
    have hpre : '%' ∉ pre := fun hp => h (List.mem_cons_of_mem _ hp)
    rw [List.cons_append, sprintfAux.eq_def]
    simp only [if_neg hc]
    rw [ih hpre]
    cases sprintfAux rest args <;> simp

theorem sprintfAux_verb (rest : List Char) (a : String) (args : List String) :
    sprintfAux ('%' :: 's' :: rest) (a :: args)
      = (sprintfAux rest args).map (fun t => a.data ++ t) := by
  rw [sprintfAux.eq_def]
  simp

theorem sprintf_three_verbs (s0 s1 s2 s3 a b c d : String)
    (h0 : '%' ∉ s0.data) (h1 : '%' ∉ s1.data) (h2 : '%' ∉ s2.data) (h3 : '%' ∉ s3.data) :
    sprintf (s0 ++ "%s" ++ s1 ++ "%s" ++ s2 ++ "%s" ++ s3) [a, b, c, d]
      = some (s0 ++ a ++ s1 ++ b ++ s2 ++ c ++ s3 ++ "%!(EXTRA string=" ++ d ++ ")") := by
  unfold sprintf
  have hfmt : (s0 ++ "%s" ++ s1 ++ "%s" ++ s2 ++ "%s" ++ s3).data
      = s0.data ++ ('%' :: 's' :: (s1.data ++ ('%' :: 's' :: (s2.data ++ ('%' :: 's' :: (s3.data ++ [])))))) := by
    simp [String.data_append]
  rw [hfmt, sprintfAux_literal _ _ _ h0, sprintfAux_verb, sprintfAux_literal _ _ _ h1,
    sprintfAux_verb, sprintfAux_literal _ _ _ h2, sprintfAux_verb, sprintfAux_literal _ _ _ h3]
  simp only [sprintfAux, Option.map_some', Option.some.injEq]
  apply String.ext
  simp [String.data_append, String.intercalate, String.intercalate.go]

set_option maxRecDepth 100000 in
theorem qfqViewFormat_segments :
    qfqViewFormat
      = "\n\tCREATE OR REPLACE VIEW " ++ "%s"
        ++ (" AS\n\tSELECT\n\t\ts.symbol,\n\t\ts.date,\n\t\ts.volume,\n\t\ts.amount,\n"
          ++ "\t\tROUND(s.open  * f.qfq_factor, 2) AS open,\n"
          ++ "\t\tROUND(s.high  * f.qfq_factor, 2) AS high,\n"
          ++ "\t\tROUND(s.low   * f.qfq_factor, 2) AS low,\n"
          ++ "\t\tROUND(s.close * f.qfq_factor, 2) AS close,\n"
          ++ "\t\tt.turnover,\n\tFROM v_stocks_daily s\n\tJOIN ")
        ++ "%s" ++ " f ON s.symbol = f.symbol AND s.date = f.date\n\tLEFT JOIN " ++ "%s"
        ++ " t ON s.symbol = t.symbol AND s.date = t.date;\n\t" := by
  decide

set_option maxRecDepth 100000 in
theorem hfqViewFormat_segments :
    hfqViewFormat
      = "\n\tCREATE OR REPLACE VIEW " ++ "%s"
        ++ (" AS\n\tSELECT\n\t\ts.symbol,\n\t\ts.date,\n\t\ts.volume,\n\t\ts.amount,\n"
          ++ "\t\tROUND(s.open  * f.hfq_factor, 2) AS open,\n"
          ++ "\t\tROUND(s.high  * f.hfq_factor, 2) AS high,\n"
          ++ "\t\tROUND(s.low   * f.hfq_factor, 2) AS low,\n"
          ++ "\t\tROUND(s.close * f.hfq_factor, 2) AS close,\n"
          ++ "\t\tt.turnover,\n\tFROM v_stocks_daily s\n\tJOIN ")
        ++ "%s" ++ " f ON s.symbol = f.symbol AND s.date = f.date\n\tLEFT JOIN " ++ "%s"
        ++ " t ON s.symbol = t.symbol AND s.date = t.date;\n\t" := by
  decide

/-! ## C12: the SQL text of `CreateQfqView` and `CreateHfqView` -/

set_option maxRecDepth 100000 in
/-- C12, the code at its one input: whatever `FactorSchema.Name` and
`TurnoverViewName` are, the statement that `CreateQfqView` (`CreateHfqView`) builds
names the view `v_qfq_stocks` (`v_hfq_stocks`), joins `raw_stocks_daily`, the
second operand `StocksSchema.Name`, under the alias `f` whose `qfq_factor`
(`hfq_factor`) column it multiplies, left-joins `FactorSchema.Name` under the
alias `t`, and ends with the report `%!(EXTRA string=...)` of the fourth
operand `TurnoverViewName`, for which the format has no verb. -/
theorem CreateQfqView_query_shifts_operands (factorSchemaName turnoverViewName : String) :
    CreateQfqView_query factorSchemaName turnoverViewName
        = some ("\n\tCREATE OR REPLACE VIEW " ++ "v_qfq_stocks"
          ++ (" AS\n\tSELECT\n\t\ts.symbol,\n\t\ts.date,\n\t\ts.volume,\n\t\ts.amount,\n"
          ++ "\t\tROUND(s.open  * f.qfq_factor, 2) AS open,\n"
          ++ "\t\tROUND(s.high  * f.qfq_factor, 2) AS high,\n"
          ++ "\t\tROUND(s.low   * f.qfq_factor, 2) AS low,\n"
          ++ "\t\tROUND(s.close * f.qfq_factor, 2) AS close,\n"
          ++ "\t\tt.turnover,\n\tFROM v_stocks_daily s\n\tJOIN ")
          ++ "raw_stocks_daily" ++ " f ON s.symbol = f.symbol AND s.date = f.date\n\tLEFT JOIN " ++ factorSchemaName
          ++ " t ON s.symbol = t.symbol AND s.date = t.date;\n\t"
          ++ "%!(EXTRA string=" ++ turnoverViewName ++ ")")
      ∧ CreateHfqView_query factorSchemaName turnoverViewName
        = some ("\n\tCREATE OR REPLACE VIEW " ++ "v_hfq_stocks"
          ++ (" AS\n\tSELECT\n\t\ts.symbol,\n\t\ts.date,\n\t\ts.volume,\n\t\ts.amount,\n"
          ++ "\t\tROUND(s.open  * f.hfq_factor, 2) AS open,\n"
          ++ "\t\tROUND(s.high  * f.hfq_factor, 2) AS high,\n"
          ++ "\t\tROUND(s.low   * f.hfq_factor, 2) AS low,\n"
          ++ "\t\tROUND(s.close * f.hfq_factor, 2) AS close,\n"
          ++ "\t\tt.turnover,\n\tFROM v_stocks_daily s\n\tJOIN ")
          ++ "raw_stocks_daily" ++ " f ON s.symbol = f.symbol AND s.date = f.date\n\tLEFT JOIN " ++ factorSchemaName
          ++ " t ON s.symbol = t.symbol AND s.date = t.date;\n\t"
          ++ "%!(EXTRA string=" ++ turnoverViewName ++ ")") := by
  constructor
  · unfold CreateQfqView_query
    rw [qfqViewFormat_segments]
    exact sprintf_three_verbs _ _ _ _ _ _ _ _ (by decide) (by decide) (by decide) (by decide)
  · unfold CreateHfqView_query
    rw [hfqViewFormat_segments]
    exact sprintf_three_verbs _ _ _ _ _ _ _ _ (by decide) (by decide) (by decide) (by decide)

/-! ## Facts about the decoder and tool calls of a step -/

theorem decodesOk_append {F X : Type} (env : Env F X) (b : List Call) :
    ∀ (a s : List Call),
      DecodesOk env s (a ++ b) ↔ DecodesOk env s a ∧ DecodesOk env (s ++ a) b := by
  intro a
  induction a with
  | nil => intro s; simp [DecodesOk]
  | cons c a ih =>
    intro s
    have h := ih (s ++ [c])
    rw [show s ++ [c] ++ a = s ++ c :: a by simp] at h
    show ((c.isDecode = true → env.exec s c = none) ∧ DecodesOk env (s ++ [c]) (a ++ b)) ↔ _
    rw [h]
    show _ ↔ ((c.isDecode = true → env.exec s c = none) ∧ DecodesOk env (s ++ [c]) a) ∧ _
    tauto

theorem decodesOk_of_all {F X : Type} (env : Env F X) :
    ∀ (ext s : List Call), ext.all (fun c => !c.isDecode) = true → DecodesOk env s ext := by
  intro ext
  induction ext with
  | nil => intro s _; trivial
  | cons c ext ih =>
    intro s h
    simp only [List.all_cons, Bool.and_eq_true, Bool.not_eq_true'] at h
    exact ⟨fun hc => by rw [h.1] at hc; exact absurd hc (by decide), ih _ h.2⟩

theorem stageInv_refl {F X : Type} (env : Env F X) (s : List Call) (o : Option String) :
    StageInv env s (o, s) := ⟨[], by simp, Or.inl trivial⟩

/-- Calls that are no decoder or tool call keep a step in order. -/
theorem stageInv_calls {F X : Type} (env : Env F X) (s cs : List Call) (o : Option String)
    (h : cs.all (fun c => !c.isDecode) = true) : StageInv env s (o, s ++ cs) :=
  ⟨cs, rfl, Or.inl (decodesOk_of_all env cs s h)⟩

/-- A step that returned no error is followed by another step. -/
theorem stageInv_trans {F X : Type} (env : Env F X) (s l1 : List Call)
    (r : Option String × List Call) (h1 : StageInv env s (none, l1)) (h2 : StageInv env l1 r) :
    StageInv env s r := by
  obtain ⟨e1, he1, hg1⟩ := h1
  obtain ⟨e2, he2, hg2⟩ := h2
  simp only at he1
  have hok1 : DecodesOk env s e1 := by
    rcases hg1 with h | ⟨_, _, _, _, _, _, _, _, h⟩
    · exact h
    · simp at h
  subst he1
  refine ⟨e1 ++ e2, by rw [he2, List.append_assoc], ?_⟩
  rcases hg2 with h | ⟨mid, c, e, msg, hext, hmid, hc, hexec, herr⟩
  · exact Or.inl ((decodesOk_append env e2 e1 s).mpr ⟨hok1, h⟩)
  · refine Or.inr ⟨e1 ++ mid, c, e, msg, by rw [hext, List.append_assoc], ?_, hc, ?_, herr⟩
    · exact (decodesOk_append env mid e1 s).mpr ⟨hok1, hmid⟩
    · rw [← List.append_assoc]; exact hexec

/-- Calls that are no decoder or tool call, then another step. -/
theorem stageInv_after_calls {F X : Type} (env : Env F X) (s cs : List Call)
    (r : Option String × List Call) (h : cs.all (fun c => !c.isDecode) = true)
    (h2 : StageInv env (s ++ cs) r) : StageInv env s r :=
  stageInv_trans env s (s ++ cs) r (stageInv_calls env s cs none h) h2

/-- A step that returned no error may be followed by a return with any error. -/
theorem stageInv_of_none {F X : Type} (env : Env F X) (s l : List Call) (o : Option String)
    (h : StageInv env s (none, l)) : StageInv env s (o, l) :=
  stageInv_trans env s l (o, l) h (stageInv_refl env l o)

/-- Wrapping the error of a step, `fmt.Errorf("...: %w", err)`. -/
theorem stageInv_wrap {F X : Type} (env : Env F X) (s l : List Call) (w e1 : String)
    (h : StageInv env s (some e1, l)) : StageInv env s (some (w ++ e1), l) := by
  obtain ⟨ext, hext, hg⟩ := h
  refine ⟨ext, hext, ?_⟩
  rcases hg with h | ⟨mid, c, e, msg, hm, hmid, hc, hexec, herr⟩
  · exact Or.inl h
  · simp only [Option.some.injEq] at herr
    exact Or.inr ⟨mid, c, e, w ++ msg, hm, hmid, hc, hexec, by rw [herr, String.append_assoc]⟩

/-- One call that returns only an error, checked at once. -/
theorem stageInv_step {F X : Type} (env : Env F X) (c : Call) (wrap : String) (s : List Call) :
    StageInv env s (step env c wrap s) := by
  unfold step
  cases hx : env.exec s c with
  | none =>
    refine ⟨[c], rfl, Or.inl ⟨fun _ => hx, trivial⟩⟩
  | some e =>
    by_cases hc : c.isDecode = true
    · exact ⟨[c], rfl, Or.inr ⟨[], c, e, wrap, rfl, trivial, hc, by simpa using hx, rfl⟩⟩
    · exact ⟨[c], rfl, Or.inl ⟨fun h => absurd h hc, trivial⟩⟩

theorem downloadLoop_stageInv {F X : Type} (env : Env F X) (p : KindParams) :
    ∀ (ds v : List Int) (log : List Call),
      StageInv env log (none, (downloadLoop env p ds v log).2) := by
  intro ds
  induction ds with
  | nil => intro v log; exact stageInv_refl env log none
  | cons d ds ih =>
    intro v log
    simp only [downloadLoop]
    split_ifs
    · split
      · refine stageInv_after_calls env _ _ _ ?_ (stageInv_after_calls env _ _ _ ?_
          (stageInv_after_calls env _ _ _ ?_ (ih _ _))) <;> rfl
      · refine stageInv_after_calls env _ _ _ ?_ (stageInv_after_calls env _ _ _ ?_
          (stageInv_after_calls env _ _ _ ?_ (ih _ _))) <;> rfl
    · refine stageInv_after_calls env _ _ _ ?_ (stageInv_after_calls env _ _ _ ?_ (ih _ _)) <;> rfl
    · split
      · refine stageInv_calls env _ _ _ ?_
        rfl
      · refine stageInv_after_calls env _ _ _ ?_ (ih _ _)
        rfl

/-- The vendor tool calls at the end of `prepareTdxData`: the first that fails
is the last call, and its error is returned. -/
theorem transcode_stageInv {F X : Type} (env : Env F X) (cfg : Config) (dataType : String)
    (v : List Int) (log : List Call) :
    StageInv env log ((transcode env cfg dataType v log).1.2, (transcode env cfg dataType v log).2) := by
  unfold transcode
  cases v.getLast? with
  | none => exact stageInv_refl env log none
  | some endDate =>
    dsimp only
    split_ifs
    · have h := stageInv_step env (Call.datatoolCreate cfg.DataDir "day" endDate)
        "failed to run DatatoolDayCreate: " log
      unfold step at h
      cases hx : env.exec log (Call.datatoolCreate cfg.DataDir "day" endDate) with
      | some e => rw [hx] at h; exact h
      | none => rw [hx] at h; exact h
    · refine stageInv_after_calls env log [Call.print "🐢 开始转档分笔数据\n"] _ rfl ?_
      have h := stageInv_step env (Call.datatoolCreate cfg.DataDir "tick" endDate)
        "failed to run DatatoolTickCreate: " (log ++ [Call.print "🐢 开始转档分笔数据\n"])
      unfold step at h
      cases hx : env.exec (log ++ [Call.print "🐢 开始转档分笔数据\n"])
        (Call.datatoolCreate cfg.DataDir "tick" endDate) with
      | some e => rw [hx] at h; exact h
      | none =>
        rw [hx] at h
        dsimp only
        refine stageInv_trans env _ _ _ h ?_
        have h2 := stageInv_step env (Call.datatoolCreate cfg.DataDir "min" endDate)
          "failed to run DatatoolMinCreate: "
          (log ++ [Call.print "🐢 开始转档分笔数据\n"]
            ++ [Call.datatoolCreate cfg.DataDir "tick" endDate]
            ++ [Call.print "🐢 开始转换分钟数据\n"])
        unfold step at h2
        refine stageInv_after_calls env _ [Call.print "🐢 开始转换分钟数据\n"] _ rfl ?_
        cases hx2 : env.exec (log ++ [Call.print "🐢 开始转档分笔数据\n"]
            ++ [Call.datatoolCreate cfg.DataDir "tick" endDate]
            ++ [Call.print "🐢 开始转换分钟数据\n"])
          (Call.datatoolCreate cfg.DataDir "min" endDate) with
        | some e =>
          rw [hx2] at h2
          have hl : log ++ [Call.print "🐢 开始转档分笔数据\n"]
              ++ [Call.datatoolCreate cfg.DataDir "tick" endDate, Call.print "🐢 开始转换分钟数据\n"]
              = log ++ [Call.print "🐢 开始转档分笔数据\n"]
                ++ [Call.datatoolCreate cfg.DataDir "tick" endDate]
                ++ [Call.print "🐢 开始转换分钟数据\n"] := by simp
          rw [hl, hx2]
          exact h2
        | none =>
          rw [hx2] at h2
          have hl : log ++ [Call.print "🐢 开始转档分笔数据\n"]
              ++ [Call.datatoolCreate cfg.DataDir "tick" endDate, Call.print "🐢 开始转换分钟数据\n"]
              = log ++ [Call.print "🐢 开始转档分笔数据\n"]
                ++ [Call.datatoolCreate cfg.DataDir "tick" endDate]
                ++ [Call.print "🐢 开始转换分钟数据\n"] := by simp
          rw [hl, hx2]
          exact h2
    · exact stageInv_refl env log none

theorem prepareTdxData_stageInv {F X : Type} (env : Env F X) (cfg : Config) (latestDate : Int)
    (dataType : String) (log : List Call) :
    StageInv env log ((prepareTdxData env cfg latestDate dataType log).1.2,
      (prepareTdxData env cfg latestDate dataType log).2) := by
  unfold prepareTdxData prepareTdxDataFrom
  split_ifs
  · exact stageInv_refl env log none
  · cases kindParams env cfg dataType with
    | none => exact stageInv_refl env log _
    | some p =>
      dsimp only
      cases env.exec log (Call.mkdirAll p.targetPath) with
      | some e =>
        refine stageInv_calls env _ _ _ ?_
        rfl
      | none =>
        dsimp only
        have h1 := downloadLoop_stageInv env p (candidateDates cfg.Today latestDate) []
          (log ++ [Call.mkdirAll p.targetPath, Call.print ("🐢 开始下载" ++ p.dataTypeCN ++ "数据\n")])
        revert h1
        cases downloadLoop env p (candidateDates cfg.Today latestDate) []
          (log ++ [Call.mkdirAll p.targetPath,
            Call.print ("🐢 开始下载" ++ p.dataTypeCN ++ "数据\n")]) with
        | mk o l2 =>
          intro h1
          cases o with
          | none =>
            refine stageInv_after_calls env _ _ _ ?_ h1
            rfl
          | some v =>
            refine stageInv_after_calls env _ _ _ ?_
              (stageInv_trans env _ _ _ h1 (transcode_stageInv env cfg dataType v l2))
            rfl

/-- A checked call followed by the rest of a step. -/
theorem stageInv_step_then {F X : Type} (env : Env F X) (c : Call) (wrap : String)
    (s : List Call) (k : List Call → Option String × List Call)
    (hk : ∀ l, StageInv env l (k l)) :
    StageInv env s
      (match step env c wrap s with
        | (some e, l) => (some e, l)
        | (none, l) => k l) := by
  have hs := stageInv_step env c wrap s
  revert hs
  cases step env c wrap s with
  | mk o l =>
    cases o with
    | some e => intro hs; exact hs
    | none => intro hs; exact stageInv_trans env s l _ hs (hk l)

theorem UpdateStocksDaily_stageInv {F X : Type} (env : Env F X) (cfg : Config) (latestDate : Int)
    (log : List Call) : StageInv env log (UpdateStocksDaily env cfg latestDate log) := by
  unfold UpdateStocksDaily
  have hp := prepareTdxData_stageInv env cfg latestDate "day" log
  revert hp
  cases prepareTdxData env cfg latestDate "day" log with
  | mk r l1 =>
    obtain ⟨v, o⟩ := r
    cases o with
    | some e => intro hp; exact stageInv_wrap env log l1 _ e hp
    | none =>
      intro hp
      dsimp only
      split_ifs
      · refine stageInv_trans env log l1 _ hp ?_
        refine stageInv_after_calls env l1 [Call.print "🐢 开始转换日线数据\n"] _ rfl ?_
        refine stageInv_step_then env _ _ _ _ (fun l => ?_)
        refine stageInv_step_then env _ _ _ _ (fun l2 => ?_)
        exact stageInv_calls env l2 _ none rfl
      · exact stageInv_trans env log l1 _ hp (stageInv_calls env l1 _ none rfl)

theorem minLineLoop_stageInv {F X : Type} (env : Env F X) (cfg : Config) :
    ∀ (parts : List String) (log : List Call), StageInv env log (minLineLoop env cfg parts log) := by
  intro parts
  induction parts with
  | nil => intro log; exact stageInv_refl env log none
  | cons p parts ih =>
    intro log
    unfold minLineLoop
    split_ifs
    · refine stageInv_step_then env _ _ _ _ (fun l => ?_)
      refine stageInv_step_then env _ _ _ _ (fun l2 => ?_)
      refine stageInv_after_calls env l2 _ _ ?_ (ih _)
      rfl
    · refine stageInv_step_then env _ _ _ _ (fun l => ?_)
      refine stageInv_step_then env _ _ _ _ (fun l2 => ?_)
      refine stageInv_after_calls env l2 _ _ ?_ (ih _)
      rfl
    · exact ih log

theorem UpdateStocksMinLine_stageInv {F X : Type} (env : Env F X) (cfg : Config)
    (latestDate : Int) (minline : String) (log : List Call) :
    StageInv env log (UpdateStocksMinLine env cfg latestDate minline log) := by
  unfold UpdateStocksMinLine
  split_ifs
  · exact stageInv_refl env log none
  · have hp := prepareTdxData_stageInv env cfg latestDate "tic" log
    revert hp
    cases prepareTdxData env cfg latestDate "tic" log with
    | mk r l1 =>
      obtain ⟨v, o⟩ := r
      cases o with
      | some e => intro hp; exact stageInv_wrap env log l1 _ e hp
      | none =>
        intro hp
        dsimp only
        split_ifs
        · exact stageInv_trans env log l1 _ hp (minLineLoop_stageInv env cfg _ l1)
        · exact stageInv_trans env log l1 _ hp (stageInv_calls env l1 _ none rfl)

theorem UpdateGbbq_stageInv {F X : Type} (env : Env F X) (cfg : Config) (log : List Call) :
    StageInv env log (UpdateGbbq env cfg log) := by
  unfold UpdateGbbq
  refine stageInv_after_calls env log [Call.print "🐢 开始下载股本变迁数据\n"] _ rfl ?_
  generalize log ++ [Call.print "🐢 开始下载股本变迁数据\n"] = s
  -- the download and the extraction of the archive are no decoder call
  have hg : ∀ o, StageInv env s (o, (getGbbqFile env cfg.DataDir s).2) := by
    intro o
    unfold getGbbqFile
    dsimp only
    cases (env.downloadFile s "http://www.tdx.com.cn/products/data/data/dbf/gbbq.zip"
      (env.pathJoin [cfg.DataDir, "gbbq.zip"])).2 with
    | some e => exact stageInv_calls env s _ o rfl
    | none =>
      dsimp only
      refine stageInv_after_calls env s
        [Call.downloadFile "http://www.tdx.com.cn/products/data/data/dbf/gbbq.zip"
          (env.pathJoin [cfg.DataDir, "gbbq.zip"])] _ rfl ?_
      unfold step
      cases env.exec (s ++ [Call.downloadFile "http://www.tdx.com.cn/products/data/data/dbf/gbbq.zip"
        (env.pathJoin [cfg.DataDir, "gbbq.zip"])]) (Call.unzipFile (env.pathJoin [cfg.DataDir, "gbbq.zip"])
        (env.pathJoin [cfg.DataDir, "gbbq-temp"])) with
      | some e => exact stageInv_calls env _ _ o rfl
      | none => exact stageInv_calls env _ _ o rfl
  revert hg
  cases getGbbqFile env cfg.DataDir s with
  | mk r l1 =>
    intro hg
    cases r with
    | error e => exact hg _
    | ok gbbqFile =>
      dsimp only
      refine stageInv_trans env s l1 _ (hg none) ?_
      refine stageInv_step_then env _ _ _ _ (fun l2 => ?_)
      refine stageInv_step_then env _ _ _ _ (fun l3 => ?_)
      refine stageInv_after_calls env l3
        [Call.print ("🔄 更新除权除息数据视图 (" ++ cfg.XdxrViewName ++ ")\n")] _ rfl ?_
      refine stageInv_step_then env _ _ _ _ (fun l4 => ?_)
      refine stageInv_after_calls env l4
        [Call.print ("🔄 更新市值换手数据视图 (" ++ cfg.TurnoverViewName ++ ")\n")] _ rfl ?_
      refine stageInv_step_then env _ _ _ _ (fun l5 => ?_)
      exact stageInv_calls env l5 _ none rfl

/-- A checked call that is no decoder or tool call. -/
theorem stageInv_plain_step {F X : Type} (env : Env F X) (c : Call) (hc : c.isDecode = false)
    (wrap : String) (s : List Call) : StageInv env s (none, (step env c wrap s).2) := by
  unfold step
  cases env.exec s c <;> exact stageInv_calls env s [c] none (by simp [hc])

theorem stageInv_plain_step_then {F X : Type} (env : Env F X) (c : Call)
    (hc : c.isDecode = false) (wrap : String) (s : List Call)
    (k : List Call → Option String × List Call)
    (hk : ∀ l, StageInv env l (none, (k l).2)) :
    StageInv env s
      (none, (match step env c wrap s with
        | (some e, l) => (some e, l)
        | (none, l) => k l).2) := by
  have hs := stageInv_plain_step env c hc wrap s
  revert hs
  cases step env c wrap s with
  | mk o l =>
    cases o with
    | some e => intro hs; exact hs
    | none => intro hs; exact stageInv_trans env s l _ hs (hk l)

theorem createViews_stageInv {F X : Type} (env : Env F X) (cfg : Config) (log : List Call) :
    StageInv env log (none, (createViews env cfg log).2) := by
  unfold createViews
  refine stageInv_after_calls env log [Call.print "🔄 创建日线临时表和视图\n"] _ rfl ?_
  refine stageInv_plain_step_then env Call.createDailyStockViews rfl _ _ _ (fun l1 => ?_)
  refine stageInv_after_calls env l1
    [Call.print ("🔄 更新前复权数据视图 (" ++ QfqViewName ++ ")\n")] _ rfl ?_
  refine stageInv_plain_step_then env Call.createQfqView rfl _ _ _ (fun l2 => ?_)
  refine stageInv_after_calls env l2
    [Call.print ("🔄 更新后复权数据视图 (" ++ HfqViewName ++ ")\n")] _ rfl ?_
  refine stageInv_plain_step_then env Call.createHfqView rfl _ _ _ (fun l3 => ?_)
  refine stageInv_after_calls env l3 [Call.print "🔄 更新5分钟数据视图\n"] _ rfl ?_
  refine stageInv_plain_step_then env
    (Call.create5MinStockViews (env.pathJoin [cfg.DataDir, "parquet_5", "*", "*.parquet"])) rfl
    _ _ _ (fun l4 => ?_)
  exact stageInv_calls env l4 _ none rfl

theorem writer_stageInv {F X : Type} (env : Env F X) :
    ∀ (rs : List result) (log : List Call), StageInv env log (none, writer env rs log) := by
  intro rs
  induction rs with
  | nil => intro log; exact stageInv_refl env log none
  | cons r rs ih =>
    intro log
    unfold writer
    cases r.err with
    | some e =>
      refine stageInv_after_calls env log _ _ ?_ (ih _)
      rfl
    | none =>
      dsimp only
      cases env.exec log (Call.writeString r.rows) with
      | some e =>
        refine stageInv_after_calls env log _ _ ?_ (ih _)
        rfl
      | none =>
        refine stageInv_after_calls env log _ _ ?_ (ih _)
        rfl

/-- `UpdateFactors` makes no decoder or tool call. -/
theorem UpdateFactors_stageInv {F X : Type} (env : Env F X) (cfg : Config)
    (sched : List result → List result) (log : List Call) (err : Option String) (l : List Call)
    (h : UpdateFactors env cfg sched log = some (err, l)) : StageInv env log (none, l) := by
  unfold UpdateFactors buildXdxrIndex at h
  dsimp only at h
  cases hc : env.exec log (Call.osCreate (env.pathJoin [cfg.DataDir, "factors.csv"])) with
  | some e =>
    rw [hc] at h
    simp only [Option.some.injEq, Prod.mk.injEq] at h
    rw [← h.2]
    exact stageInv_calls env log _ none rfl
  | none =>
    rw [hc] at h
    dsimp only at h
    refine stageInv_after_calls env log [Call.osCreate (env.pathJoin [cfg.DataDir, "factors.csv"]),
      Call.print "📟 计算所有股票前收盘价\n"] _ rfl ?_
    generalize log ++ [Call.osCreate (env.pathJoin [cfg.DataDir, "factors.csv"]),
      Call.print "📟 计算所有股票前收盘价\n"] = s at h ⊢
    cases hx : env.queryAllXdxr s with
    | error e =>
      rw [hx] at h
      simp only [Option.some.injEq, Prod.mk.injEq] at h
      rw [← h.2]
      refine stageInv_after_calls env s [Call.queryAllXdxr] _ rfl ?_
      exact stageInv_calls env _ _ none rfl
    | ok xdxrData =>
      rw [hx] at h
      dsimp only at h
      refine stageInv_after_calls env s [Call.queryAllXdxr] _ rfl ?_
      generalize s ++ [Call.queryAllXdxr] = s2 at h ⊢
      cases hq : env.queryAllSymbols s2 with
      | error e =>
        rw [hq] at h
        simp only [Option.some.injEq, Prod.mk.injEq] at h
        rw [← h.2]
        exact stageInv_calls env _ _ none rfl
      | ok symbols =>
        rw [hq] at h
        dsimp only at h
        cases hr : runWorkers env (indexOf xdxrData) symbols with
        | none => rw [hr] at h; simp at h
        | some results =>
          rw [hr] at h
          dsimp only at h
          refine stageInv_after_calls env s2 [Call.queryAllSymbols] _ rfl ?_
          have hw := writer_stageInv env (sched results) (s2 ++ [Call.queryAllSymbols])
          refine stageInv_trans env _ _ _ hw ?_
          cases hi : env.exec (writer env (sched results) (s2 ++ [Call.queryAllSymbols]))
            (Call.importFactorCsv (env.pathJoin [cfg.DataDir, "factors.csv"])) with
          | some e =>
            rw [hi] at h
            simp only [Option.some.injEq, Prod.mk.injEq] at h
            rw [← h.2]
            exact stageInv_calls env _ _ none rfl
          | none =>
            rw [hi] at h
            simp only [Option.some.injEq, Prod.mk.injEq] at h
            rw [← h.2]
            exact stageInv_calls env _ _ none rfl

/-- The deferred `db.Close()` after the last step of the cycle. -/
theorem stageInv_dbClose {F X : Type} (env : Env F X) (log l : List Call) (o : Option String)
    (h : StageInv env log (o, l)) :
    ∃ ext, l ++ [Call.dbClose] = log ++ ext ∧
      (DecodesOk env log ext ∨
        ∃ mid c e msg, ext = mid ++ [c, Call.dbClose] ∧ DecodesOk env log mid
          ∧ c.isDecode = true ∧ env.exec (log ++ mid) c = some e ∧ o = some (msg ++ e)) := by
  obtain ⟨ext, hext, hg⟩ := h
  simp only at hext
  refine ⟨ext ++ [Call.dbClose], by rw [hext, List.append_assoc], ?_⟩
  rcases hg with h | ⟨mid, c, e, msg, hm, hmid, hc, hexec, herr⟩
  · exact Or.inl ((decodesOk_append env _ ext log).mpr ⟨h, decodesOk_of_all env _ _ rfl⟩)
  · exact Or.inr ⟨mid, c, e, msg, by rw [hm]; simp, hmid, hc, hexec, herr⟩

/-- The shape of the log of a cycle: either every decoder or tool call of the
cycle succeeded, or the cycle ends with a failed decoder or tool call followed
by `db.Close()` alone and returns the error of that call; and a cycle that ends
in a panic has reached `UpdateFactors` with every decoder and tool call
succeeded. -/
theorem Cron_log_shape {F X : Type} (env : Env F X) (cfg : Config)
    (sched : List result → List result) (dbPath minline : String) (log : List Call) :
    (∀ err log1, Cron env cfg sched dbPath minline log = some (err, log1) →
        ∃ ext, log1 = log ++ ext ∧
          (DecodesOk env log ext ∨
            ∃ mid c e msg, ext = mid ++ [c, Call.dbClose] ∧ DecodesOk env log mid
              ∧ c.isDecode = true ∧ env.exec (log ++ mid) c = some e ∧ err = some (msg ++ e)))
      ∧ (Cron env cfg sched dbPath minline log = none →
          ∃ ext, DecodesOk env log ext ∧ UpdateFactors env cfg sched (log ++ ext) = none) := by
  -- a return after the connection, from a step that kept the invariant
  have close : ∀ (o : Option String) (l : List Call), StageInv env log (o, l) →
      (∀ err log1, some (o, l ++ [Call.dbClose]) = some (err, log1) →
        ∃ ext, log1 = log ++ ext ∧
          (DecodesOk env log ext ∨
            ∃ mid c e msg, ext = mid ++ [c, Call.dbClose] ∧ DecodesOk env log mid
              ∧ c.isDecode = true ∧ env.exec (log ++ mid) c = some e ∧ err = some (msg ++ e)))
      ∧ (some (o, l ++ [Call.dbClose]) = none →
          ∃ ext, DecodesOk env log ext ∧ UpdateFactors env cfg sched (log ++ ext) = none) := by
    intro o l h
    refine ⟨?_, fun hn => by simp at hn⟩
    intro err log1 heq
    simp only [Option.some.injEq, Prod.mk.injEq] at heq
    obtain ⟨rfl, rfl⟩ := heq
    exact stageInv_dbClose env log l o h
  -- a return with calls that are no decoder or tool call
  have plain : ∀ (o : Option String) (cs : List Call), cs.all (fun c => !c.isDecode) = true →
      (∀ err log1, some (o, log ++ cs) = some (err, log1) →
        ∃ ext, log1 = log ++ ext ∧
          (DecodesOk env log ext ∨
            ∃ mid c e msg, ext = mid ++ [c, Call.dbClose] ∧ DecodesOk env log mid
              ∧ c.isDecode = true ∧ env.exec (log ++ mid) c = some e ∧ err = some (msg ++ e)))
      ∧ (some (o, log ++ cs) = none →
          ∃ ext, DecodesOk env log ext ∧ UpdateFactors env cfg sched (log ++ ext) = none) := by
    intro o cs hcs
    refine ⟨?_, fun hn => by simp at hn⟩
    intro err log1 heq
    simp only [Option.some.injEq, Prod.mk.injEq] at heq
    obtain ⟨rfl, rfl⟩ := heq
    exact ⟨cs, rfl, Or.inl (decodesOk_of_all env cs log hcs)⟩
  unfold Cron step
  split_ifs with hdb
  · have := plain (some "database path cannot be empty") [] rfl
    simpa using this
  · cases hconn : env.exec log (Call.connect dbPath) with
    | some e => exact plain _ [Call.connect dbPath] rfl
    | none =>
      dsimp only
      cases hlatest : env.getStockTableLatestDate (log ++ [Call.connect dbPath]) with
      | error e =>
        dsimp only
        have := plain (some ("failed to get latest date from database: " ++ e))
          [Call.connect dbPath, Call.getStockTableLatestDate, Call.dbClose] rfl
        simpa using this
      | ok latest =>
        dsimp only
        have hstart : StageInv env log (none, log ++ [Call.connect dbPath]
            ++ [Call.getStockTableLatestDate,
              Call.print ("📅 日线数据的最新日期为 " ++ env.formatDate "2006-01-02" latest ++ "\n")]) := by
          have := stageInv_calls env log [Call.connect dbPath, Call.getStockTableLatestDate,
            Call.print ("📅 日线数据的最新日期为 " ++ env.formatDate "2006-01-02" latest ++ "\n")]
            none rfl
          simpa using this
        generalize log ++ [Call.connect dbPath] ++ [Call.getStockTableLatestDate,
          Call.print ("📅 日线数据的最新日期为 " ++ env.formatDate "2006-01-02" latest ++ "\n")]
          = log2 at hstart ⊢
        have h1 := UpdateStocksDaily_stageInv env cfg latest log2
        revert h1
        cases UpdateStocksDaily env cfg latest log2 with
        | mk o1 l3 =>
          intro h1
          cases o1 with
          | some e1 =>
            exact close _ l3 (stageInv_trans env log log2 _ hstart (stageInv_wrap env log2 l3 _ e1 h1))
          | none =>
            dsimp only
            have h13 := stageInv_trans env log log2 _ hstart h1
            have h2 := UpdateStocksMinLine_stageInv env cfg latest minline l3
            revert h2
            cases UpdateStocksMinLine env cfg latest minline l3 with
            | mk o2 l4 =>
              intro h2
              cases o2 with
              | some e2 =>
                exact close _ l4
                  (stageInv_trans env log l3 _ h13 (stageInv_wrap env l3 l4 _ e2 h2))
              | none =>
                dsimp only
                have h14 := stageInv_trans env log l3 _ h13 h2
                have h3 := UpdateGbbq_stageInv env cfg l4
                revert h3
                cases UpdateGbbq env cfg l4 with
                | mk o3 l5 =>
                  intro h3
                  cases o3 with
                  | some e3 =>
                    exact close _ l5
                      (stageInv_trans env log l4 _ h14 (stageInv_wrap env l4 l5 _ e3 h3))
                  | none =>
                    dsimp only
                    have h15 := stageInv_trans env log l4 _ h14 h3
                    cases hf : UpdateFactors env cfg sched l5 with
                    | none =>
                      dsimp only
                      refine ⟨fun err log1 hn => by simp at hn, fun _ => ?_⟩
                      obtain ⟨ext, hext, hg⟩ := h15
                      simp only at hext
                      rcases hg with hok | ⟨_, _, _, _, _, _, _, _, herr⟩
                      · exact ⟨ext, hok, by rw [← hext]; exact hf⟩
                      · simp at herr
                    | some r =>
                      obtain ⟨o4, l6⟩ := r
                      have h16 := stageInv_trans env log l5 _ h15
                        (UpdateFactors_stageInv env cfg sched l5 o4 l6 hf)
                      cases o4 with
                      | some e4 =>
                        exact close _ l6 (stageInv_of_none env log l6 _ h16)
                      | none =>
                        dsimp only
                        have h5 := createViews_stageInv env cfg l6
                        revert h5
                        cases createViews env cfg l6 with
                        | mk o5 l7 =>
                          intro h5
                          have h17 := stageInv_trans env log l6 _ h16 h5
                          cases o5 with
                          | some e5 => exact close _ l7 (stageInv_of_none env log l7 _ h17)
                          | none => exact close _ l7 h17

/-- Calls that all succeeded hold no failed decoder or tool call. -/
theorem decodesOk_at {F X : Type} (env : Env F X) (s a post : List Call) (c : Call)
    (h : DecodesOk env s (a ++ c :: post)) (hc : c.isDecode = true) :
    env.exec (s ++ a) c = none :=
  ((decodesOk_append env (c :: post) a s).mp h).2.1 hc

/-! ## C10, amended: the cycle ends at a failed decoder or tool call -/

/-- C10 as amended: take any cycle and any call in its log to the format decoder
(`ConvertFiles2Csv` for the daily, 1-minute or 5-minute files,
`ConvertGbbqFile2Csv` for the corporate actions) or to the transcoding tool
(`DatatoolCreate` for `day`, `tick` or `min`) that answered the error `e`.
Then the only call after it is the deferred `db.Close()`: the import of that
kind is not performed and no later kind, factor or view step is run; and `Cron`
returns an error that ends with `e`.  A cycle that does not return, because a
goroutine of `UpdateFactors` panics, has reached `UpdateFactors` with every
decoder and tool call succeeded. -/
theorem Cron_ends_at_failed_decode {F X : Type} (env : Env F X) (cfg : Config)
    (sched : List result → List result) (dbPath minline : String) (log : List Call) :
    (∀ (err : Option String) (log1 a : List Call) (c : Call) (post : List Call) (e : String),
        Cron env cfg sched dbPath minline log = some (err, log1) →
        log1 = log ++ a ++ c :: post → c.isDecode = true → env.exec (log ++ a) c = some e →
        post = [Call.dbClose] ∧ ∃ msg, err = some (msg ++ e))
      ∧ (Cron env cfg sched dbPath minline log = none →
          ∃ ext, DecodesOk env log ext ∧ UpdateFactors env cfg sched (log ++ ext) = none) := by
  obtain ⟨hshape, hpanic⟩ := Cron_log_shape env cfg sched dbPath minline log
  refine ⟨?_, hpanic⟩
  intro err log1 a c post e hrun hlog hc hexec
  obtain ⟨ext, hext, hg⟩ := hshape err log1 hrun
  have hsame : ext = a ++ c :: post := by
    rw [hext, List.append_assoc] at hlog
    exact List.append_cancel_left hlog
  rcases hg with hok | ⟨mid, c1, e1, msg, hm, hmid, hc1, hexec1, herr⟩
  · rw [hsame] at hok
    rw [decodesOk_at env log a post c hok hc] at hexec
    simp at hexec
  · rw [hsame] at hm
    rcases List.append_eq_append_iff.mp hm with ⟨a1, hmid1, hrest⟩ | ⟨c2, ha, hrest⟩
    · cases a1 with
      | nil =>
        simp only [List.nil_append, List.cons.injEq] at hrest
        obtain ⟨rfl, rfl⟩ := hrest
        simp only [List.append_nil] at hmid1
        subst hmid1
        rw [hexec1] at hexec
        simp only [Option.some.injEq] at hexec
        subst hexec
        exact ⟨rfl, msg, herr⟩
      | cons x a2 =>
        simp only [List.cons_append, List.cons.injEq] at hrest
        obtain ⟨rfl, _⟩ := hrest
        rw [hmid1] at hmid
        rw [decodesOk_at env log a a2 c hmid hc] at hexec
        simp at hexec
    · cases c2 with
      | nil =>
        simp only [List.nil_append, List.cons.injEq] at hrest
        obtain ⟨rfl, rfl⟩ := hrest
        simp only [List.append_nil] at ha
        subst ha
        rw [hexec1] at hexec
        simp only [Option.some.injEq] at hexec
        subst hexec
        exact ⟨rfl, msg, herr⟩
      | cons x c3 =>
        cases c3 with
        | nil =>
          simp only [List.cons_append, List.nil_append, List.cons.injEq] at hrest
          obtain ⟨_, hcc, _⟩ := hrest
          rw [← hcc] at hc
          exact absurd hc (by decide)
        | cons y c4 =>
          simp only [List.cons_append, List.cons.injEq] at hrest
          obtain ⟨_, _, hnil⟩ := hrest
          cases c4 <;> simp at hnil

theorem Cron_ends_at_failed_decode_witness :
    (Call.datatoolCreate "/data" "day" (3 * day)).isDecode = true
      ∧ demoToolFails.exec
          ([] ++ [Call.connect "/data/tdx.db", Call.getStockTableLatestDate,
            Call.print "📅 日线数据的最新日期为 0001-01-03\n",
            Call.mkdirAll "/data/vipdoc/refmhq", Call.print "🐢 开始下载日线数据\n",
            Call.downloadFile "https://www.tdx.com.cn/products/data/data/g4day/00010104.zip"
              "/data/vipdoc/refmhq/00010104day.zip",
            Call.print "✅ 已下载 00010104 的数据\n",
            Call.unzipFile "/data/vipdoc/refmhq/00010104day.zip" "/data/vipdoc/refmhq"])
          (Call.datatoolCreate "/data" "day" (3 * day)) = some "exit status 1"
      ∧ [Call.dbClose] = [Call.dbClose]
      ∧ ∃ msg, some ("failed to update daily stock data: "
          ++ ("failed to prepare tdx data: failed to run DatatoolDayCreate: exit status 1"))
        = some (msg ++ "exit status 1") :=
  ⟨rfl, rfl,
    (Cron_ends_at_failed_decode demoToolFails demoCfg id "/data/tdx.db" "1,5" []).1
      (some ("failed to update daily stock data: "
        ++ ("failed to prepare tdx data: failed to run DatatoolDayCreate: exit status 1")))
      ([Call.connect "/data/tdx.db", Call.getStockTableLatestDate,
        Call.print "📅 日线数据的最新日期为 0001-01-03\n",
        Call.mkdirAll "/data/vipdoc/refmhq", Call.print "🐢 开始下载日线数据\n",
        Call.downloadFile "https://www.tdx.com.cn/products/data/data/g4day/00010104.zip"
          "/data/vipdoc/refmhq/00010104day.zip",
        Call.print "✅ 已下载 00010104 的数据\n",
        Call.unzipFile "/data/vipdoc/refmhq/00010104day.zip" "/data/vipdoc/refmhq",
        Call.datatoolCreate "/data" "day" (3 * day)] ++ [Call.dbClose])
      [Call.connect "/data/tdx.db", Call.getStockTableLatestDate,
        Call.print "📅 日线数据的最新日期为 0001-01-03\n",
        Call.mkdirAll "/data/vipdoc/refmhq", Call.print "🐢 开始下载日线数据\n",
        Call.downloadFile "https://www.tdx.com.cn/products/data/data/g4day/00010104.zip"
          "/data/vipdoc/refmhq/00010104day.zip",
        Call.print "✅ 已下载 00010104 的数据\n",
        Call.unzipFile "/data/vipdoc/refmhq/00010104day.zip" "/data/vipdoc/refmhq"]
      (Call.datatoolCreate "/data" "day" (3 * day)) [Call.dbClose] "exit status 1"
      (Cron_of_daily_error demoToolFails demoCfg id "/data/tdx.db" "1,5" [] (2 * day) _ _
        (by decide) rfl rfl demo_daily_tool_failure)
      (by decide) rfl rfl⟩

end Tdx2db
